import Mathlib

/-!
# multiheap.c : a multi-heap allocator on top of a single-region pool engine

A shallow embedding of `src/multiheap.c`.  The C globals and the objects the
file obtains from `malloc`/`calloc` are kept in an explicit `State`; every C
function becomes a state transformer `Exec α` whose outcome is a normal
return, a process termination (which records the state at that moment), or an
exhausted recursion budget.

The headers `multiheap.h` and `smalloc_i.h` are not part of the sources.  What
`multiheap.c` takes from them (the configuration constants, the header macro
and the pool engine of one region) is the parameter `Env`.
-/

namespace MultiHeap

/-! ## Data model -/

/-- Byte-addressed memory: the contents of every address. -/
abbrev Mem := Nat → Nat

/-- The width of `size_t`: sizes are computed modulo `2 ^ 64`. -/
def SIZE_MOD : Nat := 2 ^ 64

/-- A `struct mh_heap*` as stored in the directory: `NULL`, the address of a
heap object, or the indeterminate content of a slot that `reallocarray` added
and nothing has written yet. -/
inductive heap_ptr where
  | null
  | addr (h : Nat)
  | junk
deriving DecidableEq, Repr

/-- The descriptor `struct smalloc_pool`, with the four fields that
`mh_new_arena` writes (lines 188-192). -/
structure smalloc_pool where
  pool : Option Nat
  pool_size : Nat
  do_zero : Nat
  oomfn : Option Nat
deriving DecidableEq, Repr

/-- The object `mh_arena`: fields `parent`, `prev`, `next`, `num_elem`, `pool`
as used in lines 184-192.  Arena pointers are indices into `State.arenas`. -/
structure mh_arena where
  parent : heap_ptr
  prev : Option Nat
  next : Option Nat
  num_elem : Int
  pool : smalloc_pool
deriving DecidableEq, Repr

/-- The object `mh_heap`: fields `pool_id`, `lhead`, `ltail`, `lsize` as
written by `mh_heap_init` (lines 132-135). -/
structure mh_heap where
  pool_id : Int
  lhead : Option Nat
  ltail : Option Nat
  lsize : Nat
deriving DecidableEq, Repr

/-- The global `mhallocator` (line 12): `next_id`, `mhsize` and the array
`mheaps`.  The integer widths of the two counters are declared in the absent
`multiheap.h`; they are kept unbounded here. -/
structure mh_allocator where
  next_id : Nat
  mhsize : Nat
  mheaps : List heap_ptr
deriving DecidableEq, Repr

/-- The whole allocator state: the directory, the heap objects and arena
objects obtained from `malloc` (an object's address is its index), and the
memory the pool engine works on. -/
structure State where
  mhallocator : mh_allocator
  heaps : List mh_heap
  arenas : List mh_arena
  mem : Mem

/-- What `multiheap.c` takes from the absent headers `multiheap.h` and
`smalloc_i.h`, and from the operating system.

* `MH_INITIAL_MHEAPS_NB`, `MH_DEFAULT_POOL_SIZE`, `HEADER_SZ`: constants.
* `USER_TO_HEADER`: the macro from a user pointer to its header address.
* `hdr_pool_id`, `hdr_usz`: the fields `pool_id` and `usz` of the
  `struct smalloc_hdr` found at a header address.
* `smalloc_check_magic`, `sm_malloc_pool`, `smalloc_is_alloc`, `sm_free_pool`:
  the pool engine.  The engine receives the pool descriptor by address, so it
  may update it together with the memory.
* `mmap`: the anonymous mapping of line 189; `none` is a null result. -/
structure Env where
  MH_INITIAL_MHEAPS_NB : Nat
  MH_DEFAULT_POOL_SIZE : Nat
  HEADER_SZ : Nat
  USER_TO_HEADER : Nat → Nat
  hdr_pool_id : Mem → Nat → Int
  hdr_usz : Mem → Nat → Nat
  smalloc_check_magic : Mem → Nat → Bool
  sm_malloc_pool : Int → smalloc_pool → Nat → Mem → Option Nat × smalloc_pool × Mem
  smalloc_is_alloc : smalloc_pool → Nat → Mem → Bool
  sm_free_pool : smalloc_pool → Nat → Mem → smalloc_pool × Mem
  mmap : Mem → Nat → Option Nat × Mem

/-! ## Outcomes -/

/-- The diagnostics that `check_null` and `check` print before crashing. -/
inductive Diag where
  | ptr_is_null
  | free_null
  | invalid_id
  | getid_null
  | bad_magic
  | unable_to_free
  | wrong_size_arena
deriving DecidableEq, Repr

/-- How the process can stop.
* `exit33`: a diagnostic on stderr followed by `exit(33)` (lines 46, 73, 82, 96).
* `crash d`: `check_null`/`check` printed `d` and wrote through a null pointer.
* `segv`: the code itself dereferenced a null pointer.
* `undefined`: use of an indeterminate or dangling pointer, or an access
  outside the `mheaps` array. -/
inductive Fault where
  | exit33
  | crash (d : Diag)
  | segv
  | undefined
deriving DecidableEq, Repr

/-- Result of running a C function: it returns `a` in state `s`, the process
stops with fault `f` in state `s`, or the recursion budget of the model ran
out. -/
inductive Outcome (α : Type) where
  | ret (a : α) (s : State)
  | fatal (f : Fault) (s : State)
  | nofuel

/-- A C function body: a state transformer with early termination. -/
def Exec (α : Type) : Type := State → Outcome α

/-- Sequencing of two C statements. -/
def Exec.bind {α β : Type} (m : Exec α) (f : α → Exec β) : Exec β := fun s =>
  match m s with
  | .ret a s1 => f a s1
  | .fatal e s1 => .fatal e s1
  | .nofuel => .nofuel

instance : Monad Exec where
  pure a := fun s => .ret a s
  bind := Exec.bind

/-- Read the current state. -/
def getState : Exec State := fun s => .ret s s

/-- Stop the process with fault `f`. -/
def die {α : Type} (f : Fault) : Exec α := fun s => .fatal f s

/-- The state in which an outcome ends, if the run ended. -/
def Outcome.final {α : Type} : Outcome α → Option State
  | .ret _ s => some s
  | .fatal _ s => some s
  | .nofuel => none

/-- Whether the outcome is a process termination. -/
def Outcome.isFatal {α : Type} : Outcome α → Bool
  | .fatal _ _ => true
  | _ => false

/-- Apply `f` to the current state. -/
def modifyState (f : State → State) : Exec Unit := fun s => .ret () (f s)

/-! ## Pointer accesses -/

/-- Read the heap object behind a `struct mh_heap*`. -/
def load_heap (p : heap_ptr) : Exec mh_heap := fun s =>
  match p with
  | .null => .fatal .segv s
  | .junk => .fatal .undefined s
  | .addr h =>
    match s.heaps[h]? with
    | some v => .ret v s
    | none => .fatal .undefined s

/-- Write the heap object behind a `struct mh_heap*`. -/
def store_heap (p : heap_ptr) (v : mh_heap) : Exec Unit := fun s =>
  match p with
  | .null => .fatal .segv s
  | .junk => .fatal .undefined s
  | .addr h =>
    if h < s.heaps.length then .ret () { s with heaps := s.heaps.set h v }
    else .fatal .undefined s

/-- Read the arena object behind an `mh_arena*`. -/
def load_arena (p : Option Nat) : Exec mh_arena := fun s =>
  match p with
  | none => .fatal .segv s
  | some a =>
    match s.arenas[a]? with
    | some v => .ret v s
    | none => .fatal .undefined s

/-- Write the arena object behind an `mh_arena*`. -/
def store_arena (p : Option Nat) (v : mh_arena) : Exec Unit := fun s =>
  match p with
  | none => .fatal .segv s
  | some a =>
    if a < s.arenas.length then .ret () { s with arenas := s.arenas.set a v }
    else .fatal .undefined s

/-- The read `mhallocator.mheaps[id]` of lines 75, 84, 98 and 116.  A read
outside the array yields an indeterminate pointer. -/
def read_slot (st : State) (id : Int) : heap_ptr :=
  if id < 0 then .junk else (st.mhallocator.mheaps[id.toNat]?).getD .junk

/-! ## The two checking helpers (lines 18-34) -/

/-- The function `check_null` on a plain pointer: a null pointer prints
"ptr is NULL" and crashes. -/
def check_null (ptr : Option Nat) : Exec Unit :=
  match ptr with
  | none => die (.crash .ptr_is_null)
  | some _ => pure ()

/-- The function `check_null` on a `struct mh_heap*`. -/
def check_null_heap (ptr : heap_ptr) : Exec Unit :=
  match ptr with
  | .null => die (.crash .ptr_is_null)
  | .addr _ => pure ()
  | .junk => die .undefined

/-- The function `check`: a zero `val` prints `msg` and crashes. -/
def check (val : Bool) (msg : Diag) : Exec Unit :=
  if val then pure () else die (.crash msg)

/-! ## The directory (lines 36-68) -/

/-- The libc call `reallocarray(mheaps, n, sizeof(struct mh_heap*))`: the
first `n` old entries are kept, the added entries are indeterminate. -/
def reallocarray (mheaps : List heap_ptr) (n : Nat) : List heap_ptr :=
  mheaps.take n ++ List.replicate (n - mheaps.length) .junk

/-- The function `mh_heap_init` (lines 130-136). -/
def mh_heap_init (id : Int) (heap : heap_ptr) : Exec Unit := do
  check_null_heap heap
  store_heap heap { pool_id := id, lhead := none, ltail := none, lsize := 0 }

/-- The content of a heap object fresh from `malloc`, before
`mh_heap_init` overwrites all of its fields. -/
def fresh_heap : mh_heap := { pool_id := 0, lhead := none, ltail := none, lsize := 0 }

/-- The function `mh_new_id` (lines 52-68).  The `name` argument only reaches
the hook `register_id`, which is `NULL` (line 15), so it is left out.  The
`malloc` of line 61 is taken to succeed and returns the next free heap
address. -/
def mh_new_id : Exec Int := do
  let st ← getState
  let id := st.mhallocator.next_id
  modifyState fun s => { s with mhallocator := { s.mhallocator with next_id := id + 1 } }
  let st ← getState
  if st.mhallocator.mhsize ≤ st.mhallocator.next_id then
    modifyState fun s => { s with mhallocator := { s.mhallocator with
      mhsize := s.mhallocator.mhsize * 2,
      mheaps := reallocarray s.mhallocator.mheaps (s.mhallocator.mhsize * 2) } }
  let st ← getState
  if st.mhallocator.mheaps.length ≤ id then die .undefined
  let h := st.heaps.length
  modifyState fun s => { s with
    heaps := s.heaps ++ [fresh_heap],
    mhallocator := { s.mhallocator with mheaps := s.mhallocator.mheaps.set id (.addr h) } }
  check_null_heap (.addr h)
  mh_heap_init id (.addr h)
  pure id

/-- The function `mh_init_allocator` (lines 36-48).  The `calloc` of line 39
is taken to succeed; it returns `mhsize` null slots. -/
def mh_init_allocator (E : Env) : Exec Unit := do
  modifyState fun s => { s with mhallocator :=
    { next_id := 0, mhsize := E.MH_INITIAL_MHEAPS_NB,
      mheaps := List.replicate E.MH_INITIAL_MHEAPS_NB .null } }
  let id ← mh_new_id
  if id ≠ 0 then die .exit33

/-! ## Arenas (lines 178-211) -/

/-- The content of an arena object fresh from `malloc`, before
`mh_new_arena` writes its fields. -/
def fresh_arena : mh_arena :=
  { parent := .junk, prev := none, next := none, num_elem := 0,
    pool := { pool := none, pool_size := 0, do_zero := 0, oomfn := none } }

/-- The function `mh_new_arena` (lines 178-211).  The `malloc` of line 182 is
taken to succeed and returns the next free arena address; the hook
`register_growth` is `NULL` (line 16). -/
def mh_new_arena (E : Env) (parent : heap_ptr) (pool_size : Nat) : Exec (Option Nat) := do
  check (decide (E.MH_DEFAULT_POOL_SIZE ≤ pool_size)) .wrong_size_arena
  check (decide (pool_size % E.MH_DEFAULT_POOL_SIZE = 0)) .wrong_size_arena
  check_null_heap parent
  let st ← getState
  let arena : Option Nat := some st.arenas.length
  modifyState fun s => { s with arenas := s.arenas ++ [fresh_arena] }
  check_null arena
  -- lines 184-190
  let region := E.mmap st.mem pool_size
  modifyState fun s => { s with mem := region.2 }
  store_arena arena { fresh_arena with
    parent := parent, prev := none, next := none, num_elem := 0,
    pool := { fresh_arena.pool with pool_size := pool_size, pool := region.1 } }
  check_null region.1
  -- lines 191-192
  let a ← load_arena arena
  store_arena arena { a with pool := { a.pool with do_zero := 1, oomfn := none } }
  -- lines 195-203
  let p ← load_heap parent
  if p.lhead = none ∧ p.ltail ≠ none then
    store_heap parent { p with lhead := arena, ltail := arena }
  else
    let prev := p.ltail
    store_heap parent { p with ltail := arena }
    let a ← load_arena arena
    store_arena arena { a with prev := prev }
    let pa ← load_arena prev
    store_arena prev { pa with next := arena }
  -- line 204
  let p ← load_heap parent
  store_heap parent { p with lsize := p.lsize + 1 }
  pure arena

/-! ## Heaps (lines 138-174) -/

/-- The arena size of lines 149-151, for default pool size `D`, header size
`H` and request `size`, in `size_t` arithmetic. -/
def min_pool_sz (D H size : Nat) : Nat :=
  let s := (size + H) % SIZE_MOD
  let s_aligned := ((s / D) + 1) * D % SIZE_MOD
  if s < D then D else s_aligned

/-- The loop of lines 140-145, started at `arena`: the block of the first
arena whose pool engine returns one, or `none` when the list is exhausted.
`n` bounds the number of iterations. -/
def malloc_scan (E : Env) (heap : heap_ptr) (size : Nat) : Nat → Option Nat → Exec (Option Nat)
  | _, none => pure none
  | 0, some _ => fun _ => .nofuel
  | n + 1, some a => do
    let h ← load_heap heap
    let ar ← load_arena (some a)
    let st ← getState
    let r := E.sm_malloc_pool h.pool_id ar.pool size st.mem
    modifyState fun s => { s with mem := r.2.2 }
    store_arena (some a) { ar with pool := r.2.1 }
    match r.1 with
    | some p => pure (some p)
    | none => malloc_scan E heap size n ar.next

/-- The function `mh_heap_malloc` (lines 138-156).  `fuel` bounds the
recursion of line 155 and the length of each list traversal. -/
def mh_heap_malloc (E : Env) : Nat → heap_ptr → Nat → Exec (Option Nat)
  | 0, _, _ => fun _ => .nofuel
  | fuel + 1, heap, size => do
    check_null_heap heap
    let h ← load_heap heap
    let r ← malloc_scan E heap size (fuel + 1) h.lhead
    match r with
    | some p => pure (some p)
    | none =>
      let _ ← mh_new_arena E heap (min_pool_sz E.MH_DEFAULT_POOL_SIZE E.HEADER_SZ size)
      mh_heap_malloc E fuel heap size

/-- The loop of lines 162-172, started at `arena`: `true` when an arena
claimed `ptr` and freed it, `false` when the list is exhausted. -/
def free_scan (E : Env) (ptr : Nat) : Nat → Option Nat → Exec Bool
  | _, none => pure false
  | 0, some _ => fun _ => .nofuel
  | n + 1, some a => do
    let ar ← load_arena (some a)
    let st ← getState
    if E.smalloc_is_alloc ar.pool (E.USER_TO_HEADER ptr) st.mem then
      let r := E.sm_free_pool ar.pool ptr st.mem
      modifyState fun s => { s with mem := r.2 }
      store_arena (some a) { ar with pool := r.1 }
      let ar ← load_arena (some a)
      store_arena (some a) { ar with num_elem := ar.num_elem - 1 }
      pure true
    else free_scan E ptr n ar.next

/-- The function `mh_heap_free` (lines 158-174).  `fuel` bounds the length of
the list traversal. -/
def mh_heap_free (E : Env) (fuel : Nat) (heap : heap_ptr) (ptr : Option Nat) : Exec Unit := do
  check_null_heap heap
  check_null ptr
  match ptr with
  | none => die (.crash .ptr_is_null)
  | some p =>
    let h ← load_heap heap
    let found ← free_scan E p fuel h.lhead
    if found then pure () else check false .unable_to_free

/-! ## Entry points (lines 70-126) -/

/-- The function `mh_malloc` (lines 70-77). -/
def mh_malloc (E : Env) (fuel : Nat) (id : Int) (size : Nat) : Exec (Option Nat) := do
  let st ← getState
  if id < 0 ∨ id ≥ st.mhallocator.mhsize then die .exit33
  else
    let heap := read_slot st id
    mh_heap_malloc E fuel heap size

/-- The function `mh_calloc` (lines 79-91). -/
def mh_calloc (E : Env) (fuel : Nat) (id : Int) (nmemb size : Nat) : Exec (Option Nat) := do
  let st ← getState
  if id < 0 ∨ id ≥ st.mhallocator.mhsize then die .exit33
  else
    let heap := read_slot st id
    let z : Bool := decide (nmemb = 0 ∨ size = 0)
    let nmemb := if z then 1 else nmemb
    let size := if z then 1 else size
    let nsize := nmemb * size % SIZE_MOD
    mh_heap_malloc E fuel heap nsize

/-- The library call `memcpy(dst, src, n)`. -/
def memcpy (m : Mem) (dst src n : Nat) : Mem := fun a =>
  if dst ≤ a ∧ a < dst + n then m (src + (a - dst)) else m a

/-- The function `mh_free` (lines 111-119). -/
def mh_free (E : Env) (fuel : Nat) (ptr : Option Nat) : Exec Unit := do
  check (decide (ptr ≠ none)) .free_null
  match ptr with
  | none => die (.crash .free_null)
  | some p =>
    let st ← getState
    let id := E.hdr_pool_id st.mem (E.USER_TO_HEADER p)
    check (decide (id ≥ 0 ∧ id < st.mhallocator.mhsize)) .invalid_id
    let heap := read_slot st id
    check_null_heap heap
    mh_heap_free E fuel heap ptr

/-- The function `mh_realloc` (lines 93-109). -/
def mh_realloc (E : Env) (fuel : Nat) (id : Int) (ptr : Option Nat) (size : Nat) :
    Exec (Option Nat) := do
  let st ← getState
  if id < 0 ∨ id ≥ st.mhallocator.mhsize then die .exit33
  else
    let heap := read_slot st id
    let real ← mh_heap_malloc E fuel heap size
    match ptr with
    | none => pure real
    | some p =>
      let st ← getState
      let usz := E.hdr_usz st.mem (E.USER_TO_HEADER p)
      let min := if usz < size then usz else size
      match real with
      | none => die .segv
      | some r =>
        modifyState fun s => { s with mem := memcpy s.mem r p min }
        mh_free E fuel ptr
        pure real

/-- The function `mh_get_id` (lines 121-126). -/
def mh_get_id (E : Env) (ptr : Option Nat) : Exec Int := do
  check (decide (ptr ≠ none)) .getid_null
  match ptr with
  | none => die (.crash .getid_null)
  | some p =>
    let st ← getState
    check (E.smalloc_check_magic st.mem (E.USER_TO_HEADER p)) .bad_magic
    pure (E.hdr_pool_id st.mem (E.USER_TO_HEADER p))

/-! ## A small concrete environment

One block per region: the header of the block sits at the region base and
holds a liveness mark, the heap id and the usable size in three cells; the
user pointer is the base plus `HEADER_SZ`.  Cell `0` of the memory holds the
address of the next mapping. -/

/-- A pool engine that serves one block per region. -/
def demoEnv : Env where
  MH_INITIAL_MHEAPS_NB := 2
  MH_DEFAULT_POOL_SIZE := 4096
  HEADER_SZ := 32
  USER_TO_HEADER := fun p => p - 32
  hdr_pool_id := fun m h => (m (h + 1) : Int)
  hdr_usz := fun m h => m (h + 2)
  smalloc_check_magic := fun m h => decide (m h = 1)
  sm_malloc_pool := fun id pool size m =>
    match pool.pool with
    | none => (none, pool, m)
    | some b =>
      if m b = 0 ∧ size + 32 ≤ pool.pool_size then
        (some (b + 32), pool, fun a =>
          if a = b then 1 else if a = b + 1 then id.toNat else if a = b + 2 then size else m a)
      else (none, pool, m)
  smalloc_is_alloc := fun pool h m => decide (pool.pool = some h ∧ m h = 1)
  sm_free_pool := fun pool p m => (pool, fun a => if a = p - 32 then 0 else m a)
  mmap := fun m n => (some (m 0 + 4096), fun a => if a = 0 then m 0 + 4096 + n else m a)

/-- The state of a process before `mh_init_allocator`: zeroed globals, no
heap or arena object, zeroed memory. -/
def boot : State :=
  { mhallocator := { next_id := 0, mhsize := 0, mheaps := [] },
    heaps := [], arenas := [], mem := fun _ => 0 }

/-! ## Auxiliary definitions for the statements -/

/-- The directory after the growth test of lines 55-59. -/
def grown (a : mh_allocator) : mh_allocator :=
  if a.mhsize ≤ a.next_id + 1 then
    { next_id := a.next_id + 1, mhsize := a.mhsize * 2,
      mheaps := reallocarray a.mheaps (a.mhsize * 2) }
  else { a with next_id := a.next_id + 1 }

/-- The state in which a successful `mh_new_id` returns. -/
def new_id_state (st : State) : State :=
  { st with
    mhallocator := { grown st.mhallocator with
      mheaps := (grown st.mhallocator).mheaps.set st.mhallocator.next_id (.addr st.heaps.length) },
    heaps := st.heaps ++
      [{ pool_id := (st.mhallocator.next_id : Int), lhead := none, ltail := none, lsize := 0 }] }

/-- Calling `mh_new_id` `n` times in a row, collecting the returned ids. -/
def mh_new_id_n : Nat → Exec (List Int)
  | 0 => pure []
  | n + 1 => do
    let id ← mh_new_id
    let rest ← mh_new_id_n n
    pure (id :: rest)

/-- Directory bounds: `next_id` is below the capacity and the array `mheaps`
has `mhsize` entries. -/
def dir_ok (st : State) : Prop :=
  st.mhallocator.next_id < st.mhallocator.mhsize ∧
    st.mhallocator.mheaps.length = st.mhallocator.mhsize

instance (st : State) : Decidable (dir_ok st) := by
  unfold dir_ok; infer_instance

/-- The state after lines 37-40 of `mh_init_allocator`. -/
def init_dir (E : Env) (st : State) : State :=
  { st with mhallocator :=
    { next_id := 0, mhsize := E.MH_INITIAL_MHEAPS_NB,
      mheaps := List.replicate E.MH_INITIAL_MHEAPS_NB .null } }

/-- The number `r` is the smallest multiple of `D` that is at least `s`. -/
def least_multiple_ge (D s r : Nat) : Prop :=
  D ∣ r ∧ s ≤ r ∧ ∀ m, D ∣ m → s ≤ m → r ≤ m

/-- The number `r` is the smallest multiple of `D` that is strictly above `s`. -/
def least_multiple_gt (D s r : Nat) : Prop :=
  D ∣ r ∧ s < r ∧ ∀ m, D ∣ m → s < m → r ≤ m

/-- An outcome respects `P` and `F`: the state in which it ends satisfies
`P`, and if it is a termination its fault satisfies `F`. -/
def Outcome.post {α : Type} (o : Outcome α) (P : State → Prop) (F : Fault → Prop) : Prop :=
  match o with
  | .ret _ s => P s
  | .fatal f s => P s ∧ F f
  | .nofuel => True

/-- The outcome is not the `exit(33)` termination. -/
def Outcome.no_exit {α : Type} (o : Outcome α) : Prop :=
  o.post (fun _ => True) (fun f => f ≠ .exit33)

/-- The state in which `mh_init_allocator` returns on `demoEnv`, started from
`boot`: capacity 2 (the initial capacity 2 is not exceeded by one heap), the
default heap in slot 0, no arena. -/
def demo_state : State :=
  { mhallocator := { next_id := 1, mhsize := 2, mheaps := [.addr 0, .null] },
    heaps := [{ pool_id := 0, lhead := none, ltail := none, lsize := 0 }],
    arenas := [], mem := fun _ => 0 }

/-- The outcome ends in a state whose projection `proj` has the value `c`. -/
def Outcome.keeps {α γ : Type} (o : Outcome α) (proj : State → γ) (c : γ) : Prop :=
  o.post (fun s => proj s = c) (fun _ => True)

/-- The projection `proj` of the state does not depend on the arena objects. -/
def ignores_arenas {γ : Type} (proj : State → γ) : Prop :=
  ∀ (s : State) (l : List mh_arena), proj { s with arenas := l } = proj s

/-- The projection `proj` of the state does not depend on the memory. -/
def ignores_mem {γ : Type} (proj : State → γ) : Prop :=
  ∀ (s : State) (m : Mem), proj { s with mem := m } = proj s

/-- The projection `proj` of the state does not depend on the heap objects. -/
def ignores_heaps {γ : Type} (proj : State → γ) : Prop :=
  ∀ (s : State) (l : List mh_heap), proj { s with heaps := l } = proj s

/-- The states a running process can be in: the state in which
`mh_init_allocator` returns, and every state in which a later call of an
entry point returns. -/
inductive Reachable (E : Env) : State → Prop where
  | init (st0 st1 : State) (h : mh_init_allocator E st0 = .ret () st1) : Reachable E st1
  | new_id (st st1 : State) (id : Int) (hr : Reachable E st)
      (h : mh_new_id st = .ret id st1) : Reachable E st1
  | malloc (st st1 : State) (fuel : Nat) (id : Int) (size : Nat) (p : Option Nat)
      (hr : Reachable E st) (h : mh_malloc E fuel id size st = .ret p st1) : Reachable E st1
  | calloc (st st1 : State) (fuel : Nat) (id : Int) (nmemb size : Nat) (p : Option Nat)
      (hr : Reachable E st) (h : mh_calloc E fuel id nmemb size st = .ret p st1) :
      Reachable E st1
  | realloc (st st1 : State) (fuel : Nat) (id : Int) (ptr : Option Nat) (size : Nat)
      (p : Option Nat) (hr : Reachable E st)
      (h : mh_realloc E fuel id ptr size st = .ret p st1) : Reachable E st1
  | free (st st1 : State) (fuel : Nat) (ptr : Option Nat)
      (hr : Reachable E st) (h : mh_free E fuel ptr st = .ret () st1) : Reachable E st1
  | get_id (st st1 : State) (ptr : Option Nat) (id : Int)
      (hr : Reachable E st) (h : mh_get_id E ptr st = .ret id st1) : Reachable E st1

/-- The arenas that a traversal of at most `n` steps visits when it starts at
`start` and follows the `next` pointers: the arena list of a heap when
started at its `lhead`. -/
def arena_chain (arenas : List mh_arena) : Nat → Option Nat → List Nat
  | _, none => []
  | 0, some _ => []
  | n + 1, some a =>
    a :: (match arenas[a]? with
      | some ar => arena_chain arenas n ar.next
      | none => [])

/-- A state with two heaps of one arena each, and one live block of 10 bytes
of heap 0 at user address 4128 (its header is at 4096).  Cell 0 holds the
end of the mapped regions. -/
def busy_state : State :=
  { mhallocator := { next_id := 2, mhsize := 4, mheaps := [.addr 0, .addr 1, .junk, .junk] },
    heaps := [{ pool_id := 0, lhead := some 0, ltail := some 0, lsize := 1 },
              { pool_id := 1, lhead := some 1, ltail := some 1, lsize := 1 }],
    arenas := [{ parent := .addr 0, prev := none, next := none, num_elem := 1,
                 pool := { pool := some 4096, pool_size := 4096, do_zero := 1, oomfn := none } },
               { parent := .addr 1, prev := none, next := none, num_elem := 0,
                 pool := { pool := some 8192, pool_size := 4096, do_zero := 1, oomfn := none } }],
    mem := fun a => if a = 0 then 12288 else if a = 4096 then 1 else if a = 4098 then 10 else 0 }

/-- The state `busy_state` with the heap id in the header of the block at
4128 overwritten by 7, an id outside the directory. -/
def forged_state : State :=
  { busy_state with mem := fun a => if a = 4097 then 7 else busy_state.mem a }

/-- The pool engine of arena `a` reports `ptr` as a live allocation
(the test `smalloc_is_alloc(pool, shdr)` of line 164 in state `st`). -/
def claims (E : Env) (st : State) (ptr : Nat) (a : Nat) : Bool :=
  match st.arenas[a]? with
  | some ar => E.smalloc_is_alloc ar.pool (E.USER_TO_HEADER ptr) st.mem
  | none => false

/-- The traversal from `start` reaches the null end of the list within `n`
steps, through arena objects that exist. -/
def chain_complete (arenas : List mh_arena) : Nat → Option Nat → Bool
  | _, none => true
  | 0, some _ => false
  | n + 1, some a =>
    match arenas[a]? with
    | some ar => chain_complete arenas n ar.next
    | none => false

/-- The state after lines 165-166 ran on arena `a`, whose object is `ar`: the
pool engine freed `ptr`, and `num_elem` of `a` went down by one. -/
def freed_state (E : Env) (st : State) (ptr : Nat) (a : Nat) (ar : mh_arena) : State :=
  { st with
    mem := (E.sm_free_pool ar.pool ptr st.mem).2,
    arenas := st.arenas.set a
      { ar with pool := (E.sm_free_pool ar.pool ptr st.mem).1, num_elem := ar.num_elem - 1 } }

/-- The outcome is not the crash with the diagnostic "magic header is not
correct". -/
def Outcome.no_magic_fault {α : Type} (o : Outcome α) : Prop :=
  o.post (fun _ => True) (fun f => f ≠ .crash .bad_magic)

/-- The state `busy_state` with a stray header at address 9000: its liveness
mark is 0, so `smalloc_check_magic` rejects it, its heap id is 0 and its
usable size is 5; the byte at the user address 9032 is 77. -/
def stale_state : State :=
  { busy_state with
    mem := fun a => if a = 9002 then 5 else if a = 9032 then 77 else busy_state.mem a }

/-- The state `demo_state` with a header at address 1 that names heap id 1,
a slot of the directory that is still null. -/
def null_slot_state : State :=
  { demo_state with mem := fun a => if a = 2 then 1 else 0 }

/-- The value an outcome returns, if it is a return. -/
def Outcome.result {α : Type} : Outcome α → Option α
  | .ret a _ => some a
  | _ => none

/-- The field `num_elem` of arena `a` in the state in which an outcome ends. -/
def Outcome.num_elem_of {α : Type} (o : Outcome α) (a : Nat) : Option Int :=
  (o.final.bind fun s => s.arenas[a]?).map fun ar => ar.num_elem

/-- Whether arena `a` reports `ptr` as live in the state in which an outcome
ends. -/
def Outcome.live_in {α : Type} (E : Env) (o : Outcome α) (ptr a : Nat) : Option Bool :=
  o.final.map fun s => claims E s ptr a

/-- What a scan over arenas leaves behind: the arenas that were asked, in
order, the block that was obtained if any, and the arena objects and memory
after the pool engine calls. -/
structure scan_result where
  asked : List Nat
  block : Option Nat
  arenas : List mh_arena
  mem : Mem

/-- The first-fit scan in the words of the specification: go through the
arenas `ids` in order, ask the pool engine of each for a block of `size`
bytes for heap `pool_id`, and stop at the first one that returns a block.
The result is `none` when an arena of `ids` does not exist. -/
def pool_scan (E : Env) (pool_id : Int) (size : Nat) :
    List Nat → List mh_arena → Mem → Option scan_result
  | [], arenas, mem => some { asked := [], block := none, arenas := arenas, mem := mem }
  | a :: rest, arenas, mem =>
    match arenas[a]? with
    | none => none
    | some ar =>
      match (E.sm_malloc_pool pool_id ar.pool size mem).1 with
      | some p =>
        some { asked := [a], block := some p,
               arenas := arenas.set a
                 { ar with pool := (E.sm_malloc_pool pool_id ar.pool size mem).2.1 },
               mem := (E.sm_malloc_pool pool_id ar.pool size mem).2.2 }
      | none =>
        (pool_scan E pool_id size rest
            (arenas.set a { ar with pool := (E.sm_malloc_pool pool_id ar.pool size mem).2.1 })
            (E.sm_malloc_pool pool_id ar.pool size mem).2.2).map
          fun x => { x with asked := a :: x.asked }

/-- The fields of an arena object other than its pool descriptor: the links
of the arena list and the occupancy counter. -/
def arena_links (ar : mh_arena) : heap_ptr × Option Nat × Option Nat × Int :=
  (ar.parent, ar.prev, ar.next, ar.num_elem)

/-- The state in which `mh_new_arena` returns when it appends to a heap
object `hp` at address `h` whose tail is the arena `t` with object `ta`: the
new arena sits at the next free arena address, over the region `r` of `ps`
bytes, with `prev` the old tail; the old tail's `next` and the heap's `ltail`
point to it, and `lsize` is one more. -/
def appended_state (E : Env) (st : State) (h t : Nat) (hp : mh_heap) (ta : mh_arena)
    (ps r : Nat) : State :=
  { st with
    heaps := st.heaps.set h { hp with ltail := some st.arenas.length, lsize := hp.lsize + 1 },
    arenas := (st.arenas ++ [
      ({ parent := .addr h, prev := some t, next := none, num_elem := 0,
         pool := { pool := some r, pool_size := ps, do_zero := 1, oomfn := none } } :
        mh_arena)]).set t { ta with next := some st.arenas.length },
    mem := (E.mmap st.mem ps).2 }

/-- The state `busy_state` after `mh_new_arena` appended to heap 0 a second
arena (arena 2) of 8192 bytes over the region at 16384. -/
def busy_grown : State :=
  appended_state demoEnv busy_state 0 0
    { pool_id := 0, lhead := some 0, ltail := some 0, lsize := 1 }
    { parent := .addr 0, prev := none, next := none, num_elem := 1,
      pool := { pool := some 4096, pool_size := 4096, do_zero := 1, oomfn := none } }
    8192 16384

/-- Every slot below `next_id` holds the address of a heap object whose
`pool_id` is the index of the slot. -/
def slots_ok (st : State) : Prop :=
  ∀ i, i < st.mhallocator.next_id →
    ∃ h hp, st.mhallocator.mheaps[i]? = some (.addr h) ∧ st.heaps[h]? = some hp ∧
      hp.pool_id = (i : Int)

/-- Every slot from `next_id` up to the capacity is still null. -/
def tail_null (st : State) : Prop :=
  ∀ j, st.mhallocator.next_id ≤ j → j < st.mhallocator.mhsize →
    st.mhallocator.mheaps[j]? = some .null

/-! ## Basic facts about `Exec` -/

@[simp] theorem bind_apply {α β : Type} (m : Exec α) (f : α → Exec β) (s : State) :
    (m >>= f) s = Exec.bind m f s := rfl

@[simp] theorem pure_apply {α : Type} (a : α) (s : State) :
    (pure a : Exec α) s = .ret a s := rfl

@[simp] theorem getState_apply (s : State) : getState s = .ret s s := rfl

@[simp] theorem modifyState_apply (f : State → State) (s : State) :
    modifyState f s = .ret () (f s) := rfl

@[simp] theorem die_apply {α : Type} (f : Fault) (s : State) :
    (die f : Exec α) s = .fatal f s := rfl

theorem Exec.bind_ret {α β : Type} {m : Exec α} {f : α → Exec β} {s s1 : State} {a : α}
    (h : m s = .ret a s1) : Exec.bind m f s = f a s1 := by
  simp [Exec.bind, h]

theorem Exec.bind_fatal {α β : Type} {m : Exec α} {f : α → Exec β} {s s1 : State} {e : Fault}
    (h : m s = .fatal e s1) : Exec.bind m f s = .fatal e s1 := by
  simp [Exec.bind, h]

theorem Exec.bind_nofuel {α β : Type} {m : Exec α} {f : α → Exec β} {s : State}
    (h : m s = .nofuel) : Exec.bind m f s = .nofuel := by
  simp [Exec.bind, h]

theorem mh_new_id_eq (st : State)
    (h : st.mhallocator.next_id < (grown st.mhallocator).mheaps.length) :
    mh_new_id st = .ret (st.mhallocator.next_id : Int) (new_id_state st) := by
  unfold grown at h
  by_cases hg : st.mhallocator.mhsize ≤ st.mhallocator.next_id + 1
  · simp only [hg, if_true] at h
    simp [mh_new_id, Exec.bind, mh_heap_init, check_null_heap, store_heap, hg, new_id_state,
      grown, Nat.not_le.mpr h]
  · simp only [hg, if_false] at h
    simp [mh_new_id, Exec.bind, mh_heap_init, check_null_heap, store_heap, hg, new_id_state,
      grown, Nat.not_le.mpr h]

theorem reallocarray_length (l : List heap_ptr) (n : Nat) : (reallocarray l n).length = n := by
  simp [reallocarray]; omega

theorem grown_length (a : mh_allocator) (h : a.mheaps.length = a.mhsize) :
    (grown a).mheaps.length = (grown a).mhsize := by
  unfold grown
  split
  · simp [reallocarray_length]
  · simpa using h

theorem grown_next_id (a : mh_allocator) : (grown a).next_id = a.next_id + 1 := by
  unfold grown; split <;> rfl

theorem grown_bound (a : mh_allocator) (h : a.next_id < a.mhsize) :
    a.next_id + 1 < (grown a).mhsize := by
  unfold grown
  split
  · simp; omega
  · simp; omega

theorem dir_ok_write (st : State) (h : dir_ok st) :
    st.mhallocator.next_id < (grown st.mhallocator).mheaps.length := by
  have h1 := grown_length st.mhallocator h.2
  have h2 := grown_bound st.mhallocator h.1
  omega

theorem dir_ok_new_id_state (st : State) (h : dir_ok st) : dir_ok (new_id_state st) := by
  have h1 := grown_length st.mhallocator h.2
  have h2 := grown_bound st.mhallocator h.1
  have h3 := grown_next_id st.mhallocator
  constructor
  · simp only [new_id_state]; omega
  · simp only [new_id_state, List.length_set]; exact h1

theorem new_id_state_next_id (st : State) :
    (new_id_state st).mhallocator.next_id = st.mhallocator.next_id + 1 := by
  simp [new_id_state, grown_next_id]

theorem dir_ok_init_dir (E : Env) (st : State) (hcap : 1 ≤ E.MH_INITIAL_MHEAPS_NB) :
    dir_ok (init_dir E st) := by
  constructor
  · simp [init_dir]; omega
  · simp [init_dir]

theorem mh_init_allocator_eq (E : Env) (st : State) (hcap : 1 ≤ E.MH_INITIAL_MHEAPS_NB) :
    mh_init_allocator E st = .ret () (new_id_state (init_dir E st)) := by
  have h := mh_new_id_eq (init_dir E st) (dir_ok_write _ (dir_ok_init_dir E st hcap))
  have h0 : (init_dir E st).mhallocator.next_id = 0 := rfl
  rw [show mh_init_allocator E st
      = Exec.bind mh_new_id (fun id => if id ≠ 0 then die .exit33 else pure ()) (init_dir E st)
      from rfl, Exec.bind_ret h, h0]
  simp

theorem mh_new_id_n_eq (n : Nat) : ∀ st : State, dir_ok st →
    ∃ st2, mh_new_id_n n st
        = .ret ((List.range n).map fun i => ((st.mhallocator.next_id + i : Nat) : Int)) st2
      ∧ dir_ok st2 ∧ st2.mhallocator.next_id = st.mhallocator.next_id + n := by
  induction n with
  | zero => intro st h; exact ⟨st, by simp [mh_new_id_n], h, rfl⟩
  | succ n ih =>
    intro st h
    obtain ⟨st2, h2, hok, hn⟩ := ih (new_id_state st) (dir_ok_new_id_state st h)
    refine ⟨st2, ?_, hok, ?_⟩
    · simp only [mh_new_id_n, bind_apply]
      rw [Exec.bind_ret (mh_new_id_eq st (dir_ok_write st h))]
      simp only [bind_apply]
      rw [Exec.bind_ret h2]
      simp only [pure_apply, new_id_state_next_id, List.range_succ_eq_map, List.map_cons,
        List.map_map]
      congr 2
      · apply List.map_congr_left
        intro i _
        simp only [Function.comp]
        congr 1
        omega
    · rw [hn, new_id_state_next_id]; omega

/-- On a heap whose `ltail` is null, `mh_new_arena` never returns: the test
of line 195 is false, and line 202 writes through the null `prev`. -/
theorem mh_new_arena_null_tail (E : Env) (st : State) (h : Nat) (hp : mh_heap) (ps : Nat)
    (hh : st.heaps[h]? = some hp) (ht : hp.ltail = none) :
    ∃ f s, mh_new_arena E (.addr h) ps st = .fatal f s ∧
      (E.MH_DEFAULT_POOL_SIZE ≤ ps → ps % E.MH_DEFAULT_POOL_SIZE = 0 →
        (E.mmap st.mem ps).1 ≠ none → f = .segv ∧ s.arenas.length = st.arenas.length + 1) := by
  have hlt : h < st.heaps.length := by
    rcases Nat.lt_or_ge h st.heaps.length with h1 | h1
    · exact h1
    · simp [List.getElem?_eq_none h1] at hh
  by_cases c1 : E.MH_DEFAULT_POOL_SIZE ≤ ps
  · by_cases c2 : ps % E.MH_DEFAULT_POOL_SIZE = 0
    · cases c3 : (E.mmap st.mem ps).1 with
      | none =>
        refine ⟨.crash .ptr_is_null,
          { st with
            arenas := st.arenas ++ [
              { fresh_arena with
                parent := .addr h, pool := { fresh_arena.pool with pool_size := ps } }],
            mem := (E.mmap st.mem ps).2 }, ?_, ?_⟩
        · simp [mh_new_arena, Exec.bind, check, check_null, check_null_heap, store_arena,
            c1, c2, c3, fresh_arena]
        · intro _ _ hne; exact absurd rfl hne
      | some r =>
        refine ⟨.segv,
          { st with
            heaps := st.heaps.set h { hp with ltail := some st.arenas.length },
            arenas := st.arenas ++ [
              { parent := .addr h, prev := none, next := none, num_elem := 0,
                pool := { pool := some r, pool_size := ps, do_zero := 1, oomfn := none } }],
            mem := (E.mmap st.mem ps).2 }, ?_, ?_⟩
        · simp [mh_new_arena, Exec.bind, check, check_null, check_null_heap, store_arena,
            load_arena, load_heap, store_heap, c1, c2, c3, hh, ht, hlt]
        · intro _ _ _
          simp
    · exact ⟨.crash .wrong_size_arena, st,
        by simp [mh_new_arena, Exec.bind, check, c1, c2], fun _ h2 => absurd h2 c2⟩
  · exact ⟨.crash .wrong_size_arena, st,
      by simp [mh_new_arena, Exec.bind, check, c1], fun h1 => absurd h1 c1⟩

/-- On a heap without arenas (`lhead` and `ltail` null) `mh_heap_malloc`
never returns: its first growth stops inside `mh_new_arena`. -/
theorem mh_heap_malloc_no_arena (E : Env) (st : State) (h : Nat) (hp : mh_heap)
    (fuel size : Nat) (hh : st.heaps[h]? = some hp) (hl : hp.lhead = none)
    (ht : hp.ltail = none) :
    ∃ f s, mh_heap_malloc E (fuel + 1) (.addr h) size st = .fatal f s ∧
      (E.MH_DEFAULT_POOL_SIZE ≤ min_pool_sz E.MH_DEFAULT_POOL_SIZE E.HEADER_SZ size →
        min_pool_sz E.MH_DEFAULT_POOL_SIZE E.HEADER_SZ size % E.MH_DEFAULT_POOL_SIZE = 0 →
        (E.mmap st.mem (min_pool_sz E.MH_DEFAULT_POOL_SIZE E.HEADER_SZ size)).1 ≠ none →
        f = .segv ∧ s.arenas.length = st.arenas.length + 1) := by
  obtain ⟨f, s, hf, hseg⟩ := mh_new_arena_null_tail E st h hp
    (min_pool_sz E.MH_DEFAULT_POOL_SIZE E.HEADER_SZ size) hh ht
  refine ⟨f, s, ?_, hseg⟩
  simp only [mh_heap_malloc, bind_apply, Exec.bind, check_null_heap, pure_apply, load_heap, hh,
    hl, malloc_scan]
  rw [hf]

theorem new_id_state_slot (st : State) (h : dir_ok st) :
    read_slot (new_id_state st) (st.mhallocator.next_id : Int) = .addr st.heaps.length := by
  have hw := dir_ok_write st h
  simp [read_slot, new_id_state, hw]

theorem new_id_state_heap (st : State) :
    (new_id_state st).heaps[st.heaps.length]?
      = some { pool_id := (st.mhallocator.next_id : Int), lhead := none, ltail := none,
               lsize := 0 } := by
  simp [new_id_state]


theorem mh_malloc_valid_id (E : Env) (fuel : Nat) (id : Int) (size : Nat) (st : State)
    (h0 : 0 ≤ id) (h1 : id < st.mhallocator.mhsize) :
    mh_malloc E fuel id size st = mh_heap_malloc E fuel (read_slot st id) size st := by
  have hc : ¬ (id < 0 ∨ id ≥ (st.mhallocator.mhsize : Int)) := by omega
  simp [mh_malloc, Exec.bind, hc]

theorem mh_realloc_valid_id (E : Env) (fuel : Nat) (id : Int) (ptr : Option Nat) (size : Nat)
    (st : State) (h0 : 0 ≤ id) (h1 : id < st.mhallocator.mhsize) :
    mh_realloc E fuel id ptr size st
      = Exec.bind (mh_heap_malloc E fuel (read_slot st id) size) (fun real =>
          match ptr with
          | none => pure real
          | some p => do
            let st ← getState
            let usz := E.hdr_usz st.mem (E.USER_TO_HEADER p)
            let min := if usz < size then usz else size
            match real with
            | none => die .segv
            | some r =>
              modifyState fun s => { s with mem := memcpy s.mem r p min }
              mh_free E fuel ptr
              pure real) st := by
  have hc : ¬ (id < 0 ∨ id ≥ (st.mhallocator.mhsize : Int)) := by omega
  simp [mh_realloc, Exec.bind, hc]

/-! ## No path below the id validation ends in `exit(33)` -/

theorem post_bind {α β : Type} {m : Exec α} {f : α → Exec β} {s : State} {P : State → Prop}
    {F : Fault → Prop} (hm : (m s).post P F) (hf : ∀ a s1, P s1 → (f a s1).post P F) :
    (Exec.bind m f s).post P F := by
  unfold Exec.bind
  cases h : m s with
  | ret a s1 => rw [h] at hm; exact hf a s1 hm
  | fatal e s1 => rw [h] at hm; exact hm
  | nofuel => trivial

theorem no_exit_bind {α β : Type} {m : Exec α} {f : α → Exec β} {s : State}
    (hm : (m s).no_exit) (hf : ∀ a s1, (f a s1).no_exit) : ((m >>= f) s).no_exit :=
  post_bind hm (fun a s1 _ => hf a s1)

theorem no_exit_pure {α : Type} (a : α) (s : State) : ((pure a : Exec α) s).no_exit := trivial
theorem no_exit_getState (s : State) : (getState s).no_exit := trivial
theorem no_exit_modifyState (f : State → State) (s : State) : (modifyState f s).no_exit := trivial
theorem no_exit_die {α : Type} (f : Fault) (h : f ≠ .exit33) (s : State) :
    ((die f : Exec α) s).no_exit := ⟨trivial, h⟩
theorem no_exit_check (v : Bool) (d : Diag) (s : State) : (check v d s).no_exit := by
  cases v <;> simp [check, Outcome.no_exit, Outcome.post]
theorem no_exit_check_null (p : Option Nat) (s : State) : (check_null p s).no_exit := by
  cases p <;> simp [check_null, Outcome.no_exit, Outcome.post]
theorem no_exit_check_null_heap (p : heap_ptr) (s : State) : (check_null_heap p s).no_exit := by
  cases p <;> simp [check_null_heap, Outcome.no_exit, Outcome.post]
theorem no_exit_load_heap (p : heap_ptr) (s : State) : (load_heap p s).no_exit := by
  unfold load_heap
  split <;> (try split) <;> simp [Outcome.no_exit, Outcome.post]
theorem no_exit_store_heap (p : heap_ptr) (v : mh_heap) (s : State) :
    (store_heap p v s).no_exit := by
  unfold store_heap
  split <;> (try split) <;> simp [Outcome.no_exit, Outcome.post]
theorem no_exit_load_arena (p : Option Nat) (s : State) : (load_arena p s).no_exit := by
  unfold load_arena
  split <;> (try split) <;> simp [Outcome.no_exit, Outcome.post]
theorem no_exit_store_arena (p : Option Nat) (v : mh_arena) (s : State) :
    (store_arena p v s).no_exit := by
  unfold store_arena
  split <;> (try split) <;> simp [Outcome.no_exit, Outcome.post]

theorem mh_new_arena_no_exit (E : Env) (parent : heap_ptr) (ps : Nat) (s : State) :
    (mh_new_arena E parent ps s).no_exit := by
  unfold mh_new_arena
  repeat' (first
    | apply no_exit_pure
    | apply no_exit_getState
    | apply no_exit_modifyState
    | apply no_exit_check
    | apply no_exit_check_null
    | apply no_exit_check_null_heap
    | apply no_exit_load_heap
    | apply no_exit_store_heap
    | apply no_exit_load_arena
    | apply no_exit_store_arena
    | apply no_exit_bind
    | intro x1 x2
    | split)

theorem malloc_scan_no_exit (E : Env) (heap : heap_ptr) (size : Nat) (n : Nat) :
    ∀ (a : Option Nat) (s : State), (malloc_scan E heap size n a s).no_exit := by
  induction n with
  | zero =>
    intro a s
    cases a <;> simp [malloc_scan, Outcome.no_exit, Outcome.post]
  | succ n ih =>
    intro a s
    cases a with
    | none => simp [malloc_scan, Outcome.no_exit, Outcome.post]
    | some a =>
      unfold malloc_scan
      refine no_exit_bind (no_exit_load_heap _ _) (fun h s1 => ?_)
      refine no_exit_bind (no_exit_load_arena _ _) (fun ar s2 => ?_)
      refine no_exit_bind (no_exit_getState _) (fun st s3 => ?_)
      refine no_exit_bind (no_exit_modifyState _ _) (fun _ s4 => ?_)
      refine no_exit_bind (no_exit_store_arena _ _ _) (fun _ s5 => ?_)
      cases (E.sm_malloc_pool h.pool_id ar.pool size st.mem).1 with
      | none => exact ih _ _
      | some p => exact no_exit_pure _ _

theorem mh_heap_malloc_no_exit (E : Env) (fuel : Nat) :
    ∀ (heap : heap_ptr) (size : Nat) (s : State),
      (mh_heap_malloc E fuel heap size s).no_exit := by
  induction fuel with
  | zero => intro heap size s; simp [mh_heap_malloc, Outcome.no_exit, Outcome.post]
  | succ fuel ih =>
    intro heap size s
    unfold mh_heap_malloc
    repeat' (first
      | apply no_exit_pure
      | apply no_exit_check_null_heap
      | apply no_exit_load_heap
      | apply malloc_scan_no_exit
      | apply mh_new_arena_no_exit
      | apply ih
      | apply no_exit_bind
      | intro x1 x2
      | split)

theorem free_scan_no_exit (E : Env) (ptr : Nat) (n : Nat) :
    ∀ (a : Option Nat) (s : State), (free_scan E ptr n a s).no_exit := by
  induction n with
  | zero =>
    intro a s
    cases a <;> simp [free_scan, Outcome.no_exit, Outcome.post]
  | succ n ih =>
    intro a s
    cases a with
    | none => simp [free_scan, Outcome.no_exit, Outcome.post]
    | some a =>
      unfold free_scan
      repeat' (first
          | apply no_exit_pure
          | apply no_exit_getState
          | apply no_exit_modifyState
          | apply no_exit_check
          | apply no_exit_check_null
          | apply no_exit_check_null_heap
          | apply no_exit_load_heap
          | apply no_exit_store_heap
          | apply no_exit_load_arena
          | apply no_exit_store_arena
          | apply ih
          | apply no_exit_bind
          | intro x1 x2
          | split)

theorem mh_heap_free_no_exit (E : Env) (fuel : Nat) (heap : heap_ptr) (ptr : Option Nat)
    (s : State) : (mh_heap_free E fuel heap ptr s).no_exit := by
  unfold mh_heap_free
  repeat' (first
    | apply no_exit_pure
    | apply no_exit_check
    | apply no_exit_check_null
    | apply no_exit_check_null_heap
    | apply no_exit_load_heap
    | apply free_scan_no_exit
    | apply no_exit_die _ (by decide)
    | apply no_exit_bind
    | intro x1 x2
    | split)

theorem mh_free_no_exit (E : Env) (fuel : Nat) (ptr : Option Nat) (s : State) :
    (mh_free E fuel ptr s).no_exit := by
  unfold mh_free
  repeat' (first
    | apply no_exit_pure
    | apply no_exit_getState
    | apply no_exit_check
    | apply no_exit_check_null_heap
    | apply mh_heap_free_no_exit
    | apply no_exit_die _ (by decide)
    | apply no_exit_bind
    | intro x1 x2
    | split)

/-! ## Parts of the state a call leaves alone -/

section keeps
variable {γ : Type} {proj : State → γ} {c : γ}

theorem keeps_bind {α β : Type} {m : Exec α} {f : α → Exec β} {s : State}
    (hm : (m s).keeps proj c) (hf : ∀ a s1, proj s1 = c → (f a s1).keeps proj c) :
    ((m >>= f) s).keeps proj c :=
  post_bind hm hf

theorem keeps_pure {α : Type} (a : α) (s : State) (h : proj s = c) :
    ((pure a : Exec α) s).keeps proj c := h

theorem keeps_getState (s : State) (h : proj s = c) : (getState s).keeps proj c := h

theorem keeps_die {α : Type} (f : Fault) (s : State) (h : proj s = c) :
    ((die f : Exec α) s).keeps proj c := ⟨h, trivial⟩

theorem keeps_check (v : Bool) (d : Diag) (s : State) (h : proj s = c) :
    (check v d s).keeps proj c := by
  cases v <;> simp [check, Outcome.keeps, Outcome.post, h]

theorem keeps_check_null (p : Option Nat) (s : State) (h : proj s = c) :
    (check_null p s).keeps proj c := by
  cases p <;> simp [check_null, Outcome.keeps, Outcome.post, h]

theorem keeps_check_null_heap (p : heap_ptr) (s : State) (h : proj s = c) :
    (check_null_heap p s).keeps proj c := by
  cases p <;> simp [check_null_heap, Outcome.keeps, Outcome.post, h]

theorem keeps_load_heap (p : heap_ptr) (s : State) (h : proj s = c) :
    (load_heap p s).keeps proj c := by
  unfold load_heap
  split <;> (try split) <;> simp [Outcome.keeps, Outcome.post, h]

theorem keeps_load_arena (p : Option Nat) (s : State) (h : proj s = c) :
    (load_arena p s).keeps proj c := by
  unfold load_arena
  split <;> (try split) <;> simp [Outcome.keeps, Outcome.post, h]

theorem keeps_store_arena (hA : ignores_arenas proj) (p : Option Nat) (v : mh_arena)
    (s : State) (h : proj s = c) : (store_arena p v s).keeps proj c := by
  unfold store_arena
  split <;> (try split) <;> simp [Outcome.keeps, Outcome.post, h, hA s]

theorem keeps_store_heap (hH : ignores_heaps proj) (p : heap_ptr) (v : mh_heap)
    (s : State) (h : proj s = c) : (store_heap p v s).keeps proj c := by
  unfold store_heap
  split <;> (try split) <;> simp [Outcome.keeps, Outcome.post, h, hH s]

theorem keeps_set_mem (hM : ignores_mem proj) (f : State → Mem) (s : State) (h : proj s = c) :
    (modifyState (fun s => { s with mem := f s }) s).keeps proj c := by
  simp [Outcome.keeps, Outcome.post, h, hM s]

theorem keeps_set_arenas (hA : ignores_arenas proj) (f : State → List mh_arena) (s : State)
    (h : proj s = c) :
    (modifyState (fun s => { s with arenas := f s }) s).keeps proj c := by
  simp [Outcome.keeps, Outcome.post, h, hA s]

theorem free_scan_keeps (hA : ignores_arenas proj) (hM : ignores_mem proj) (E : Env)
    (ptr : Nat) (n : Nat) :
    ∀ (a : Option Nat) (s : State), proj s = c → (free_scan E ptr n a s).keeps proj c := by
  induction n with
  | zero =>
    intro a s h
    cases a <;> simp [free_scan, Outcome.keeps, Outcome.post, h]
  | succ n ih =>
    intro a s h
    cases a with
    | none => simp [free_scan, Outcome.keeps, Outcome.post, h]
    | some a =>
      unfold free_scan
      refine keeps_bind (keeps_load_arena _ _ h) (fun ar s1 h1 => ?_)
      refine keeps_bind (keeps_getState _ h1) (fun st s2 h2 => ?_)
      split
      · refine keeps_bind (keeps_set_mem hM _ _ h2) (fun _ s3 h3 => ?_)
        refine keeps_bind (keeps_store_arena hA _ _ _ h3) (fun _ s4 h4 => ?_)
        refine keeps_bind (keeps_load_arena _ _ h4) (fun ar2 s5 h5 => ?_)
        refine keeps_bind (keeps_store_arena hA _ _ _ h5) (fun _ s6 h6 => ?_)
        exact keeps_pure _ _ h6
      · exact ih _ _ h2

theorem mh_heap_free_keeps (hA : ignores_arenas proj) (hM : ignores_mem proj) (E : Env)
    (fuel : Nat) (heap : heap_ptr) (ptr : Option Nat) (s : State) (h : proj s = c) :
    (mh_heap_free E fuel heap ptr s).keeps proj c := by
  unfold mh_heap_free
  refine keeps_bind (keeps_check_null_heap _ _ h) (fun _ s1 h1 => ?_)
  refine keeps_bind (keeps_check_null _ _ h1) (fun _ s2 h2 => ?_)
  cases ptr with
  | none => exact keeps_die _ _ h2
  | some p =>
    refine keeps_bind (keeps_load_heap _ _ h2) (fun hp s3 h3 => ?_)
    refine keeps_bind (free_scan_keeps hA hM E p fuel _ _ h3) (fun found s4 h4 => ?_)
    cases found
    · exact keeps_check _ _ _ h4
    · exact keeps_pure _ _ h4

theorem mh_free_keeps (hA : ignores_arenas proj) (hM : ignores_mem proj) (E : Env)
    (fuel : Nat) (ptr : Option Nat) (s : State) (h : proj s = c) :
    (mh_free E fuel ptr s).keeps proj c := by
  unfold mh_free
  refine keeps_bind (keeps_check _ _ _ h) (fun _ s1 h1 => ?_)
  cases ptr with
  | none => exact keeps_die _ _ h1
  | some p =>
    refine keeps_bind (keeps_getState _ h1) (fun st s2 h2 => ?_)
    refine keeps_bind (keeps_check _ _ _ h2) (fun _ s3 h3 => ?_)
    refine keeps_bind (keeps_check_null_heap _ _ h3) (fun _ s4 h4 => ?_)
    exact mh_heap_free_keeps hA hM E fuel _ _ _ h4

theorem mh_new_arena_keeps (hA : ignores_arenas proj) (hM : ignores_mem proj)
    (hH : ignores_heaps proj) (E : Env) (parent : heap_ptr) (ps : Nat) (s : State)
    (h : proj s = c) : (mh_new_arena E parent ps s).keeps proj c := by
  unfold mh_new_arena
  refine keeps_bind (keeps_check _ _ _ h) (fun _ s1 h1 => ?_)
  refine keeps_bind (keeps_check _ _ _ h1) (fun _ s2 h2 => ?_)
  refine keeps_bind (keeps_check_null_heap _ _ h2) (fun _ s3 h3 => ?_)
  refine keeps_bind (keeps_getState _ h3) (fun st s4 h4 => ?_)
  refine keeps_bind (keeps_set_arenas hA _ _ h4) (fun _ s5 h5 => ?_)
  refine keeps_bind (keeps_check_null _ _ h5) (fun _ s6 h6 => ?_)
  refine keeps_bind (keeps_set_mem hM _ _ h6) (fun _ s7 h7 => ?_)
  refine keeps_bind (keeps_store_arena hA _ _ _ h7) (fun _ s8 h8 => ?_)
  refine keeps_bind (keeps_check_null _ _ h8) (fun _ s9 h9 => ?_)
  refine keeps_bind (keeps_load_arena _ _ h9) (fun a s10 h10 => ?_)
  refine keeps_bind (keeps_store_arena hA _ _ _ h10) (fun _ s11 h11 => ?_)
  refine keeps_bind (keeps_load_heap _ _ h11) (fun p s12 h12 => ?_)
  split
  · refine keeps_bind (keeps_store_heap hH _ _ _ h12) (fun _ s13 h13 => ?_)
    refine keeps_bind (keeps_load_heap _ _ h13) (fun p2 s14 h14 => ?_)
    refine keeps_bind (keeps_store_heap hH _ _ _ h14) (fun _ s15 h15 => ?_)
    exact keeps_pure _ _ h15
  · refine keeps_bind (keeps_store_heap hH _ _ _ h12) (fun _ t1 g1 => ?_)
    refine keeps_bind (keeps_load_arena _ _ g1) (fun a2 t2 g2 => ?_)
    refine keeps_bind (keeps_store_arena hA _ _ _ g2) (fun _ t3 g3 => ?_)
    refine keeps_bind (keeps_load_arena _ _ g3) (fun pa t4 g4 => ?_)
    refine keeps_bind (keeps_store_arena hA _ _ _ g4) (fun _ s13 h13 => ?_)
    refine keeps_bind (keeps_load_heap _ _ h13) (fun p2 s14 h14 => ?_)
    refine keeps_bind (keeps_store_heap hH _ _ _ h14) (fun _ s15 h15 => ?_)
    exact keeps_pure _ _ h15

theorem malloc_scan_keeps (hA : ignores_arenas proj) (hM : ignores_mem proj) (E : Env)
    (heap : heap_ptr) (size : Nat) (n : Nat) :
    ∀ (a : Option Nat) (s : State), proj s = c →
      (malloc_scan E heap size n a s).keeps proj c := by
  induction n with
  | zero =>
    intro a s h
    cases a <;> simp [malloc_scan, Outcome.keeps, Outcome.post, h]
  | succ n ih =>
    intro a s h
    cases a with
    | none => simp [malloc_scan, Outcome.keeps, Outcome.post, h]
    | some a =>
      unfold malloc_scan
      refine keeps_bind (keeps_load_heap _ _ h) (fun hp s1 h1 => ?_)
      refine keeps_bind (keeps_load_arena _ _ h1) (fun ar s2 h2 => ?_)
      refine keeps_bind (keeps_getState _ h2) (fun st s3 h3 => ?_)
      refine keeps_bind (keeps_set_mem hM _ _ h3) (fun _ s4 h4 => ?_)
      refine keeps_bind (keeps_store_arena hA _ _ _ h4) (fun _ s5 h5 => ?_)
      cases (E.sm_malloc_pool hp.pool_id ar.pool size st.mem).1 with
      | none => exact ih _ _ h5
      | some p => exact keeps_pure _ _ h5

theorem mh_heap_malloc_keeps (hA : ignores_arenas proj) (hM : ignores_mem proj)
    (hH : ignores_heaps proj) (E : Env) (fuel : Nat) :
    ∀ (heap : heap_ptr) (size : Nat) (s : State), proj s = c →
      (mh_heap_malloc E fuel heap size s).keeps proj c := by
  induction fuel with
  | zero => intro heap size s h; simp [mh_heap_malloc, Outcome.keeps, Outcome.post]
  | succ fuel ih =>
    intro heap size s h
    unfold mh_heap_malloc
    refine keeps_bind (keeps_check_null_heap _ _ h) (fun _ s1 h1 => ?_)
    refine keeps_bind (keeps_load_heap _ _ h1) (fun hp s2 h2 => ?_)
    refine keeps_bind (malloc_scan_keeps hA hM E _ _ _ _ _ h2) (fun r s3 h3 => ?_)
    cases r with
    | some p => exact keeps_pure _ _ h3
    | none =>
      refine keeps_bind (mh_new_arena_keeps hA hM hH E _ _ _ h3) (fun _ s4 h4 => ?_)
      exact ih _ _ _ h4

theorem mh_malloc_keeps (hA : ignores_arenas proj) (hM : ignores_mem proj)
    (hH : ignores_heaps proj) (E : Env) (fuel : Nat) (id : Int) (size : Nat) (s : State)
    (h : proj s = c) : (mh_malloc E fuel id size s).keeps proj c := by
  unfold mh_malloc
  refine keeps_bind (keeps_getState _ h) (fun st s1 h1 => ?_)
  split
  · exact keeps_die _ _ h1
  · exact mh_heap_malloc_keeps hA hM hH E fuel _ _ _ h1

theorem mh_calloc_keeps (hA : ignores_arenas proj) (hM : ignores_mem proj)
    (hH : ignores_heaps proj) (E : Env) (fuel : Nat) (id : Int) (nmemb size : Nat) (s : State)
    (h : proj s = c) : (mh_calloc E fuel id nmemb size s).keeps proj c := by
  unfold mh_calloc
  refine keeps_bind (keeps_getState _ h) (fun st s1 h1 => ?_)
  split
  · exact keeps_die _ _ h1
  · exact mh_heap_malloc_keeps hA hM hH E fuel _ _ _ h1

theorem mh_realloc_keeps (hA : ignores_arenas proj) (hM : ignores_mem proj)
    (hH : ignores_heaps proj) (E : Env) (fuel : Nat) (id : Int) (ptr : Option Nat)
    (size : Nat) (s : State) (h : proj s = c) :
    (mh_realloc E fuel id ptr size s).keeps proj c := by
  unfold mh_realloc
  refine keeps_bind (keeps_getState _ h) (fun st s1 h1 => ?_)
  split
  · exact keeps_die _ _ h1
  · refine keeps_bind (mh_heap_malloc_keeps hA hM hH E fuel _ _ _ h1) (fun real s2 h2 => ?_)
    cases ptr with
    | none => exact keeps_pure _ _ h2
    | some p =>
      refine keeps_bind (keeps_getState _ h2) (fun st2 s3 h3 => ?_)
      cases real with
      | none => exact keeps_die _ _ h3
      | some r =>
        refine keeps_bind (keeps_set_mem hM _ _ h3) (fun _ s4 h4 => ?_)
        refine keeps_bind (mh_free_keeps hA hM E fuel _ _ h4) (fun _ s5 h5 => ?_)
        exact keeps_pure _ _ h5

theorem mh_get_id_keeps (E : Env) (ptr : Option Nat) (s : State) (h : proj s = c) :
    (mh_get_id E ptr s).keeps proj c := by
  unfold mh_get_id
  refine keeps_bind (keeps_check _ _ _ h) (fun _ s1 h1 => ?_)
  cases ptr with
  | none => exact keeps_die _ _ h1
  | some p =>
    refine keeps_bind (keeps_getState _ h1) (fun st s2 h2 => ?_)
    refine keeps_bind (keeps_check _ _ _ h2) (fun _ s3 h3 => ?_)
    exact keeps_pure _ _ h3

end keeps

/-! ## The directory bounds hold in every reachable state -/

theorem mh_init_allocator_zero_capacity (E : Env) (st0 st1 : State)
    (hcap : E.MH_INITIAL_MHEAPS_NB = 0) : mh_init_allocator E st0 ≠ .ret () st1 := by
  simp [mh_init_allocator, mh_new_id, Exec.bind, hcap, reallocarray]

theorem keeps_ret {α γ : Type} {o : Outcome α} {proj : State → γ} {c : γ} {a : α} {s : State}
    (h : o.keeps proj c) (ho : o = .ret a s) : proj s = c := by
  subst ho; exact h

theorem dir_ok_of_mhallocator {s s1 : State} (h : s1.mhallocator = s.mhallocator)
    (hs : dir_ok s) : dir_ok s1 := by
  unfold dir_ok at *
  rw [h]; exact hs

theorem reachable_dir_ok (E : Env) (st : State) (hr : Reachable E st) : dir_ok st := by
  have hA : ignores_arenas State.mhallocator := fun _ _ => rfl
  have hM : ignores_mem State.mhallocator := fun _ _ => rfl
  have hH : ignores_heaps State.mhallocator := fun _ _ => rfl
  induction hr with
  | init st0 st1 h =>
    rcases Nat.eq_zero_or_pos E.MH_INITIAL_MHEAPS_NB with h0 | h0
    · exact absurd h (mh_init_allocator_zero_capacity E st0 st1 h0)
    · rw [mh_init_allocator_eq E st0 h0] at h
      injection h with _ h2
      rw [← h2]
      exact dir_ok_new_id_state _ (dir_ok_init_dir E st0 h0)
  | new_id st st1 id _ h ih =>
    rw [mh_new_id_eq st (dir_ok_write st ih)] at h
    injection h with _ h2
    rw [← h2]
    exact dir_ok_new_id_state _ ih
  | malloc st st1 fuel id size p _ h ih =>
    exact dir_ok_of_mhallocator (keeps_ret (mh_malloc_keeps hA hM hH E fuel id size st rfl) h) ih
  | calloc st st1 fuel id nmemb size p _ h ih =>
    exact dir_ok_of_mhallocator
      (keeps_ret (mh_calloc_keeps hA hM hH E fuel id nmemb size st rfl) h) ih
  | realloc st st1 fuel id ptr size p _ h ih =>
    exact dir_ok_of_mhallocator
      (keeps_ret (mh_realloc_keeps hA hM hH E fuel id ptr size st rfl) h) ih
  | free st st1 fuel ptr _ h ih =>
    exact dir_ok_of_mhallocator (keeps_ret (mh_free_keeps hA hM E fuel ptr st rfl) h) ih
  | get_id st st1 ptr id _ h ih =>
    exact dir_ok_of_mhallocator (keeps_ret (mh_get_id_keeps E ptr st rfl) h) ih

theorem reallocarray_getElem (l : List heap_ptr) (n j : Nat) (hn : l.length ≤ n)
    (hj : j < l.length) : (reallocarray l n)[j]? = l[j]? := by
  unfold reallocarray
  rw [List.take_of_length_le hn, List.getElem?_append_left hj]

theorem grown_getElem (a : mh_allocator) (h : a.mheaps.length = a.mhsize) (j : Nat)
    (hj : j < a.mhsize) : (grown a).mheaps[j]? = a.mheaps[j]? := by
  unfold grown
  split
  · exact reallocarray_getElem _ _ _ (by omega) (by omega)
  · rfl

theorem grown_mhsize (a : mh_allocator) :
    (grown a).mhsize = a.mhsize ∨ (grown a).mhsize = 2 * a.mhsize := by
  unfold grown
  split
  · right; simp; omega
  · left; rfl

theorem Exec.bind_pure_right {α : Type} (m : Exec α) (s : State) :
    Exec.bind m (fun a => pure a) s = m s := by
  unfold Exec.bind
  cases m s <;> rfl

theorem mh_calloc_valid_id (E : Env) (fuel : Nat) (id : Int) (nmemb size : Nat) (st : State)
    (h0 : 0 ≤ id) (h1 : id < st.mhallocator.mhsize) :
    mh_calloc E fuel id nmemb size st
      = mh_heap_malloc E fuel (read_slot st id)
          ((if decide (nmemb = 0 ∨ size = 0) then 1 else nmemb)
            * (if decide (nmemb = 0 ∨ size = 0) then 1 else size) % SIZE_MOD) st := by
  have hc : ¬ (id < 0 ∨ id ≥ (st.mhallocator.mhsize : Int)) := by omega
  simp [mh_calloc, Exec.bind, hc]

/-! ## What `mh_free` changes -/

theorem keeps_final {α γ : Type} {o : Outcome α} {proj : State → γ} {c : γ} {s : State}
    (h : o.keeps proj c) (ho : o.final = some s) : proj s = c := by
  cases o with
  | ret a s1 => simp [Outcome.final] at ho; subst ho; exact h
  | fatal f s1 => simp [Outcome.final] at ho; subst ho; exact h.1
  | nofuel => simp [Outcome.final] at ho

theorem free_scan_frame (E : Env) (p : Nat) (n : Nat) :
    ∀ (start : Option Nat) (s s1 : State), (free_scan E p n start s).final = some s1 →
      s1.arenas.length = s.arenas.length ∧
      ∀ a, a ∉ arena_chain s.arenas n start → s1.arenas[a]? = s.arenas[a]? := by
  induction n with
  | zero =>
    intro start s s1 h
    cases start with
    | none =>
      simp [free_scan, Outcome.final] at h
      subst h; exact ⟨rfl, fun _ _ => rfl⟩
    | some a => simp [free_scan, Outcome.final] at h
  | succ n ih =>
    intro start s s1 h
    cases start with
    | none =>
      simp [free_scan, Outcome.final] at h
      subst h; exact ⟨rfl, fun _ _ => rfl⟩
    | some a0 =>
      cases har : s.arenas[a0]? with
      | none =>
        simp [free_scan, Exec.bind, load_arena, har, Outcome.final] at h
        subst h; exact ⟨rfl, fun _ _ => rfl⟩
      | some ar =>
        have hlt : a0 < s.arenas.length := by
          rcases Nat.lt_or_ge a0 s.arenas.length with h1 | h1
          · exact h1
          · simp [List.getElem?_eq_none h1] at har
        by_cases hc : E.smalloc_is_alloc ar.pool (E.USER_TO_HEADER p) s.mem = true
        · simp [free_scan, Exec.bind, load_arena, store_arena, har, hc, hlt,
            Outcome.final] at h
          subst h
          refine ⟨by simp, ?_⟩
          intro a ha
          have hne : a0 ≠ a := by
            intro e; apply ha; simp [arena_chain, e]
          simp [List.getElem?_set_ne hne]
        · have hrec : free_scan E p (n + 1) (some a0) s = free_scan E p n ar.next s := by
            simp [free_scan, Exec.bind, load_arena, har, hc]
          rw [hrec] at h
          obtain ⟨h1, h2⟩ := ih ar.next s s1 h
          refine ⟨h1, ?_⟩
          intro a ha
          apply h2
          intro hin
          apply ha
          simp [arena_chain, har, hin]

theorem mh_free_null (E : Env) (fuel : Nat) (st : State) :
    mh_free E fuel none st = .fatal (.crash .free_null) st := by
  simp [mh_free, Exec.bind, check]

theorem mh_free_some (E : Env) (fuel : Nat) (p : Nat) (st : State) :
    mh_free E fuel (some p) st
      = (if 0 ≤ E.hdr_pool_id st.mem (E.USER_TO_HEADER p) ∧
            E.hdr_pool_id st.mem (E.USER_TO_HEADER p) < st.mhallocator.mhsize
          then mh_heap_free E fuel (read_slot st (E.hdr_pool_id st.mem (E.USER_TO_HEADER p)))
            (some p) st
          else .fatal (.crash .invalid_id) st) := by
  by_cases hc : 0 ≤ E.hdr_pool_id st.mem (E.USER_TO_HEADER p) ∧
      E.hdr_pool_id st.mem (E.USER_TO_HEADER p) < st.mhallocator.mhsize
  · rw [if_pos hc]
    cases hs : read_slot st (E.hdr_pool_id st.mem (E.USER_TO_HEADER p)) <;>
      simp [mh_free, mh_heap_free, Exec.bind, check, check_null_heap, hc, hs]
  · rw [if_neg hc]
    simp [mh_free, Exec.bind, check, hc]

theorem mh_heap_free_frame (E : Env) (fuel : Nat) (heap : heap_ptr) (p : Nat) (s s1 : State)
    (h : (mh_heap_free E fuel heap (some p) s).final = some s1) :
    s1.arenas.length = s.arenas.length ∧
    ∀ a, (∀ h hp, heap = .addr h → s.heaps[h]? = some hp →
        a ∉ arena_chain s.arenas fuel hp.lhead) → s1.arenas[a]? = s.arenas[a]? := by
  cases heap with
  | null =>
    simp [mh_heap_free, Exec.bind, check_null_heap, Outcome.final] at h
    subst h; exact ⟨rfl, fun _ _ => rfl⟩
  | junk =>
    simp [mh_heap_free, Exec.bind, check_null_heap, Outcome.final] at h
    subst h; exact ⟨rfl, fun _ _ => rfl⟩
  | addr hh =>
    cases hhp : s.heaps[hh]? with
    | none =>
      simp [mh_heap_free, Exec.bind, check_null_heap, check_null, load_heap, hhp,
        Outcome.final] at h
      subst h; exact ⟨rfl, fun _ _ => rfl⟩
    | some hp =>
      have hfin : (free_scan E p fuel hp.lhead s).final = some s1 := by
        simp only [mh_heap_free, bind_apply, Exec.bind, check_null_heap, check_null,
          pure_apply, load_heap, hhp] at h
        cases hsc : free_scan E p fuel hp.lhead s with
        | ret found s2 =>
          rw [hsc] at h
          cases found <;> simp [check, Outcome.final] at h <;> simp [Outcome.final, h]
        | fatal f s2 =>
          rw [hsc] at h
          simpa [Outcome.final] using h
        | nofuel =>
          rw [hsc] at h
          simp [Outcome.final] at h
      obtain ⟨h1, h2⟩ := free_scan_frame E p fuel hp.lhead s s1 hfin
      exact ⟨h1, fun a ha => h2 a (ha hh hp rfl hhp)⟩

/-! ## The claims -/

/-- C1 (defect in the code).  After `mh_init_allocator` with a directory
capacity of at least 1, the first `mh_malloc(0, size)` on the default heap
returns no pointer for any size: the heap has no arena, so `mh_heap_malloc`
calls `mh_new_arena`, whose branch test at line 195 is false for a heap with
null `lhead` and `ltail`, and the process stops there.  When the two size
checks pass and `mmap` succeeds, it stops at line 202 by writing through the
null `prev`, after one arena object has been created. -/
theorem mh_malloc_first_call_fatal (E : Env) (st0 : State) (fuel size : Nat)
    (hcap : 1 ≤ E.MH_INITIAL_MHEAPS_NB) :
    ∃ st1, mh_init_allocator E st0 = .ret () st1 ∧
      ∃ f st2, mh_malloc E (fuel + 1) 0 size st1 = .fatal f st2 ∧
        (E.MH_DEFAULT_POOL_SIZE ≤ min_pool_sz E.MH_DEFAULT_POOL_SIZE E.HEADER_SZ size →
          min_pool_sz E.MH_DEFAULT_POOL_SIZE E.HEADER_SZ size % E.MH_DEFAULT_POOL_SIZE = 0 →
          (E.mmap st1.mem (min_pool_sz E.MH_DEFAULT_POOL_SIZE E.HEADER_SZ size)).1 ≠ none →
          f = .segv ∧ st2.arenas.length = st1.arenas.length + 1) := by
  have hok := dir_ok_init_dir E st0 hcap
  refine ⟨new_id_state (init_dir E st0), mh_init_allocator_eq E st0 hcap, ?_⟩
  have hok2 := dir_ok_new_id_state _ hok
  have hslot := new_id_state_slot _ hok
  have hheap := new_id_state_heap (init_dir E st0)
  have hn : (init_dir E st0).mhallocator.next_id = 0 := rfl
  rw [hn] at hslot hheap
  have hlt : (0 : Int) < ((new_id_state (init_dir E st0)).mhallocator.mhsize : Int) := by
    have := hok2.1
    omega
  rw [mh_malloc_valid_id E (fuel + 1) 0 size _ (le_refl 0) hlt]
  have hslot0 : read_slot (new_id_state (init_dir E st0)) 0
      = .addr (init_dir E st0).heaps.length := by simpa using hslot
  rw [hslot0]
  exact mh_heap_malloc_no_arena E _ _ _ fuel size hheap rfl rfl

/-- C1, on the concrete environment: started from the zeroed process state,
`mh_init_allocator(); mh_malloc(0, 1)` stops with a fault. -/
theorem mh_malloc_first_call_fatal_witness :
    1 ≤ demoEnv.MH_INITIAL_MHEAPS_NB ∧
    ∃ st1, mh_init_allocator demoEnv boot = .ret () st1 ∧
      ∃ f st2, mh_malloc demoEnv (0 + 1) 0 1 st1 = .fatal f st2 ∧
        (demoEnv.MH_DEFAULT_POOL_SIZE
            ≤ min_pool_sz demoEnv.MH_DEFAULT_POOL_SIZE demoEnv.HEADER_SZ 1 →
          min_pool_sz demoEnv.MH_DEFAULT_POOL_SIZE demoEnv.HEADER_SZ 1
            % demoEnv.MH_DEFAULT_POOL_SIZE = 0 →
          (demoEnv.mmap st1.mem
            (min_pool_sz demoEnv.MH_DEFAULT_POOL_SIZE demoEnv.HEADER_SZ 1)).1 ≠ none →
          f = .segv ∧ st2.arenas.length = st1.arenas.length + 1) :=
  ⟨by decide, mh_malloc_first_call_fatal demoEnv boot 0 1 (by decide)⟩

theorem least_multiple_gt_succ_div (D s : Nat) (hD : 0 < D) :
    least_multiple_gt D s ((s / D + 1) * D) := by
  refine ⟨Dvd.intro_left _ rfl, ?_, ?_⟩
  · have := Nat.lt_mul_div_succ s hD
    rw [Nat.mul_comm]; exact this
  · rintro m ⟨k, rfl⟩ hk
    have h1 : s / D < k := Nat.div_lt_of_lt_mul hk
    rw [Nat.mul_comm D k]
    exact Nat.mul_le_mul_right D h1

/-- C2 (the claim as stated fails).  With default pool size 4096 and header
size 32, the request of 4064 bytes gives `s = 4096`, a multiple of the pool
size that does not wrap; the arena size of lines 149-151 is 8192, which is
not the smallest multiple of 4096 that is at least `s` (that is 4096). -/
theorem min_pool_sz_not_least_multiple_ge :
    4064 + 32 < SIZE_MOD ∧ ¬ (4064 + 32 < 4096) ∧ min_pool_sz 4096 32 4064 = 8192 ∧
      ¬ least_multiple_ge 4096 (4064 + 32) (min_pool_sz 4096 32 4064) := by
  have hv : min_pool_sz 4096 32 4064 = 8192 := by
    simp [min_pool_sz, SIZE_MOD]
  refine ⟨by simp [SIZE_MOD], by decide, hv, ?_⟩
  rw [hv]
  rintro ⟨_, _, hmin⟩
  have := hmin 4096 (dvd_refl _) (by decide)
  omega

/-- C2 (amended).  For a request with `s = size + header_size` below `2^64`
and a positive default pool size `D`, the arena size that `mh_heap_malloc`
passes to `mh_new_arena` is `D` if `s < D`, and otherwise `(s / D + 1) * D`
modulo `2^64`.  When that product is below `2^64` it is the smallest
multiple of `D` strictly above `s`: the smallest multiple that is at least
`s` when `s` is not a multiple of `D`, and `s + D` when `s` is a multiple of
`D`. -/
theorem min_pool_sz_spec (D H size : Nat) (hD : 0 < D) (hs : size + H < SIZE_MOD) :
    (size + H < D → min_pool_sz D H size = D) ∧
    (D ≤ size + H → min_pool_sz D H size = ((size + H) / D + 1) * D % SIZE_MOD) ∧
    (D ≤ size + H → ((size + H) / D + 1) * D < SIZE_MOD →
      least_multiple_gt D (size + H) (min_pool_sz D H size) ∧
      (¬ D ∣ size + H → least_multiple_ge D (size + H) (min_pool_sz D H size)) ∧
      (D ∣ size + H → min_pool_sz D H size = size + H + D)) := by
  have hmod : (size + H) % SIZE_MOD = size + H := Nat.mod_eq_of_lt hs
  have hge : D ≤ size + H → min_pool_sz D H size = ((size + H) / D + 1) * D % SIZE_MOD := by
    intro h
    simp [min_pool_sz, hmod, Nat.not_lt.mpr h]
  refine ⟨?_, hge, ?_⟩
  · intro h
    simp [min_pool_sz, hmod, h]
  · intro h hfit
    have hv : min_pool_sz D H size = ((size + H) / D + 1) * D := by
      rw [hge h, Nat.mod_eq_of_lt hfit]
    have hgt := least_multiple_gt_succ_div D (size + H) hD
    rw [hv]
    refine ⟨hgt, ?_, ?_⟩
    · intro hnd
      refine ⟨hgt.1, Nat.le_of_lt hgt.2.1, ?_⟩
      intro m hm hsm
      rcases Nat.lt_or_ge (size + H) m with h1 | h1
      · exact hgt.2.2 m hm h1
      · have : m = size + H := Nat.le_antisymm h1 hsm
        exact absurd (this ▸ hm) hnd
    · rintro ⟨k, hk⟩
      rw [hk, Nat.mul_div_cancel_left k hD]
      ring

/-- C2 (amended), at default pool size 4096, header size 32 and a request of
10000 bytes. -/
theorem min_pool_sz_spec_witness :
    (0 < 4096 ∧ 10000 + 32 < SIZE_MOD) ∧
    ((10000 + 32 < 4096 → min_pool_sz 4096 32 10000 = 4096) ∧
    (4096 ≤ 10000 + 32 →
      min_pool_sz 4096 32 10000 = ((10000 + 32) / 4096 + 1) * 4096 % SIZE_MOD) ∧
    (4096 ≤ 10000 + 32 → ((10000 + 32) / 4096 + 1) * 4096 < SIZE_MOD →
      least_multiple_gt 4096 (10000 + 32) (min_pool_sz 4096 32 10000) ∧
      (¬ 4096 ∣ 10000 + 32 → least_multiple_ge 4096 (10000 + 32) (min_pool_sz 4096 32 10000)) ∧
      (4096 ∣ 10000 + 32 → min_pool_sz 4096 32 10000 = 10000 + 32 + 4096))) :=
  ⟨⟨by decide, by simp [SIZE_MOD]⟩, min_pool_sz_spec 4096 32 10000 (by decide) (by simp [SIZE_MOD])⟩

/-- C3.  For every id below 0 or at least the capacity `mhsize`, each of
`mh_malloc`, `mh_calloc` and `mh_realloc` ends in `exit(33)` in the state it
was called in: no pointer is returned and the directory, the heaps, the
arenas and the memory are unchanged.  For every id with `0 <= id < mhsize`
none of the three calls ends in `exit(33)`, the termination of the id
validation; `mh_malloc` continues into `mh_heap_malloc` on slot `id`. -/
theorem id_validation (E : Env) (fuel : Nat) (id : Int) (ptr : Option Nat) (nmemb size : Nat)
    (st : State) :
    ((id < 0 ∨ id ≥ st.mhallocator.mhsize) →
      mh_malloc E fuel id size st = .fatal .exit33 st ∧
      mh_calloc E fuel id nmemb size st = .fatal .exit33 st ∧
      mh_realloc E fuel id ptr size st = .fatal .exit33 st) ∧
    ((0 ≤ id ∧ id < st.mhallocator.mhsize) →
      (mh_malloc E fuel id size st).no_exit ∧
      (mh_calloc E fuel id nmemb size st).no_exit ∧
      (mh_realloc E fuel id ptr size st).no_exit ∧
      mh_malloc E fuel id size st = mh_heap_malloc E fuel (read_slot st id) size st) := by
  constructor
  · intro hbad
    simp [mh_malloc, mh_calloc, mh_realloc, Exec.bind, hbad]
  · rintro ⟨h0, h1⟩
    have hc : ¬ (id < 0 ∨ id ≥ (st.mhallocator.mhsize : Int)) := by omega
    refine ⟨?_, ?_, ?_, mh_malloc_valid_id E fuel id size st h0 h1⟩
    · rw [mh_malloc_valid_id E fuel id size st h0 h1]
      exact mh_heap_malloc_no_exit E fuel _ _ _
    · have : mh_calloc E fuel id nmemb size st
          = mh_heap_malloc E fuel (read_slot st id)
              ((if decide (nmemb = 0 ∨ size = 0) then 1 else nmemb)
                * (if decide (nmemb = 0 ∨ size = 0) then 1 else size) % SIZE_MOD) st := by
        simp [mh_calloc, Exec.bind, hc]
      rw [this]
      exact mh_heap_malloc_no_exit E fuel _ _ _
    · rw [mh_realloc_valid_id E fuel id ptr size st h0 h1]
      refine post_bind (mh_heap_malloc_no_exit E fuel _ _ _) (fun real s1 _ => ?_)
      cases ptr with
      | none => exact no_exit_pure _ _
      | some p =>
        refine no_exit_bind (no_exit_getState _) (fun st2 s2 => ?_)
        cases real with
        | none => exact no_exit_die _ (by decide) _
        | some r =>
          refine no_exit_bind (no_exit_modifyState _ _) (fun _ s3 => ?_)
          refine no_exit_bind (mh_free_no_exit E fuel _ _) (fun _ s4 => ?_)
          exact no_exit_pure _ _

/-- C3, at the invalid id 999999 and at the valid id 0 of the state right
after `mh_init_allocator`. -/
theorem id_validation_witness :
    (((999999 : Int) < 0 ∨ (999999 : Int) ≥ demo_state.mhallocator.mhsize) ∧
      (mh_malloc demoEnv 2 999999 10 demo_state = .fatal .exit33 demo_state ∧
       mh_calloc demoEnv 2 999999 1 10 demo_state = .fatal .exit33 demo_state ∧
       mh_realloc demoEnv 2 999999 none 10 demo_state = .fatal .exit33 demo_state)) ∧
    (((0 : Int) ≤ 0 ∧ (0 : Int) < demo_state.mhallocator.mhsize) ∧
      ((mh_malloc demoEnv 2 0 10 demo_state).no_exit ∧
       (mh_calloc demoEnv 2 0 1 10 demo_state).no_exit ∧
       (mh_realloc demoEnv 2 0 none 10 demo_state).no_exit ∧
       mh_malloc demoEnv 2 0 10 demo_state
        = mh_heap_malloc demoEnv 2 (read_slot demo_state 0) 10 demo_state)) :=
  ⟨⟨by decide, (id_validation demoEnv 2 999999 none 1 10 demo_state).1 (by decide)⟩,
   ⟨by decide, (id_validation demoEnv 2 0 none 1 10 demo_state).2 (by decide)⟩⟩

theorem mh_init_allocator_demo : mh_init_allocator demoEnv boot = .ret () demo_state := by
  rw [mh_init_allocator_eq demoEnv boot (by decide)]
  rfl

/-- C4.  With an initial directory capacity of at least 1,
`mh_init_allocator` returns: its call of `mh_new_id` returns 0, so the
`id != 0` exit is not taken, and slot 0 of the directory holds the default
heap, whose `pool_id` is 0.  The next `n` calls of `mh_new_id` all return, and
they return `1, 2, ..., n` in this order. -/
theorem init_then_new_ids (E : Env) (st0 : State) (n : Nat)
    (hcap : 1 ≤ E.MH_INITIAL_MHEAPS_NB) :
    ∃ st1, mh_init_allocator E st0 = .ret () st1 ∧
      mh_new_id (init_dir E st0) = .ret 0 st1 ∧
      (∃ h hp, read_slot st1 0 = .addr h ∧ st1.heaps[h]? = some hp ∧ hp.pool_id = 0) ∧
      ∃ st2, mh_new_id_n n st1 = .ret ((List.range n).map fun i => ((i + 1 : Nat) : Int)) st2 := by
  have hok := dir_ok_init_dir E st0 hcap
  have hok1 := dir_ok_new_id_state _ hok
  refine ⟨new_id_state (init_dir E st0), mh_init_allocator_eq E st0 hcap, ?_, ?_, ?_⟩
  · exact mh_new_id_eq _ (dir_ok_write _ hok)
  · refine ⟨_, _, ?_, new_id_state_heap _, rfl⟩
    have := new_id_state_slot _ hok
    simpa [init_dir] using this
  · obtain ⟨st2, h2, -, -⟩ := mh_new_id_n_eq n _ hok1
    refine ⟨st2, ?_⟩
    rw [h2]
    have h1 : (new_id_state (init_dir E st0)).mhallocator.next_id = 1 := by
      rw [new_id_state_next_id]; rfl
    rw [h1]
    congr 1
    apply List.map_congr_left
    intro i _
    congr 1
    omega

/-- C4, on the concrete environment with three calls of `mh_new_id`. -/
theorem init_then_new_ids_witness :
    1 ≤ demoEnv.MH_INITIAL_MHEAPS_NB ∧
    ∃ st1, mh_init_allocator demoEnv boot = .ret () st1 ∧
      mh_new_id (init_dir demoEnv boot) = .ret 0 st1 ∧
      (∃ h hp, read_slot st1 0 = .addr h ∧ st1.heaps[h]? = some hp ∧ hp.pool_id = 0) ∧
      ∃ st2, mh_new_id_n 3 st1 = .ret ((List.range 3).map fun i => ((i + 1 : Nat) : Int)) st2 :=
  ⟨by decide, init_then_new_ids demoEnv boot 3 (by decide)⟩

/-- C5.  In every reachable state a call of `mh_new_id` returns the old
`next_id`, and afterwards every slot below the old `next_id` holds the same
heap pointer as before, also when the call doubled the capacity; more
generally every slot of the old array other than the slot of the returned id
is unchanged.  The heap objects that existed before are unchanged (the new
heap object is appended), and so are all arena objects and the memory, so
every previously assigned heap keeps its id and its arena sequence.  Only the
slot of the returned id, `next_id` and, on growth, the capacity change. -/
theorem mh_new_id_frame (E : Env) (st : State) (hr : Reachable E st) :
    ∃ st1, mh_new_id st = .ret (st.mhallocator.next_id : Int) st1 ∧
      (∀ j, j < st.mhallocator.next_id →
        st1.mhallocator.mheaps[j]? = st.mhallocator.mheaps[j]?) ∧
      (∀ j, j < st.mhallocator.mhsize → j ≠ st.mhallocator.next_id →
        st1.mhallocator.mheaps[j]? = st.mhallocator.mheaps[j]?) ∧
      st1.mhallocator.mheaps[st.mhallocator.next_id]? = some (.addr st.heaps.length) ∧
      st1.heaps = st.heaps ++
        [{ pool_id := (st.mhallocator.next_id : Int), lhead := none, ltail := none,
           lsize := 0 }] ∧
      st1.arenas = st.arenas ∧ st1.mem = st.mem ∧
      st1.mhallocator.next_id = st.mhallocator.next_id + 1 ∧
      (st1.mhallocator.mhsize = st.mhallocator.mhsize ∨
        st1.mhallocator.mhsize = 2 * st.mhallocator.mhsize) := by
  have hok := reachable_dir_ok E st hr
  have hw := dir_ok_write st hok
  have hslot : ∀ j, j < st.mhallocator.mhsize → j ≠ st.mhallocator.next_id →
      (new_id_state st).mhallocator.mheaps[j]? = st.mhallocator.mheaps[j]? := by
    intro j hj hne
    simp only [new_id_state]
    rw [List.getElem?_set_ne (Ne.symm hne)]
    exact grown_getElem _ hok.2 j hj
  refine ⟨new_id_state st, mh_new_id_eq st hw, ?_, hslot, ?_, rfl, rfl, rfl,
    new_id_state_next_id st, grown_mhsize _⟩
  · intro j hj
    exact hslot j (by have := hok.1; omega) (by omega)
  · simp only [new_id_state]
    rw [List.getElem?_set_self hw]

/-- C5, at the state right after `mh_init_allocator`, where the call doubles
the capacity from 2 to 4. -/
theorem mh_new_id_frame_witness :
    Reachable demoEnv demo_state ∧
    ∃ st1, mh_new_id demo_state = .ret (demo_state.mhallocator.next_id : Int) st1 ∧
      (∀ j, j < demo_state.mhallocator.next_id →
        st1.mhallocator.mheaps[j]? = demo_state.mhallocator.mheaps[j]?) ∧
      (∀ j, j < demo_state.mhallocator.mhsize → j ≠ demo_state.mhallocator.next_id →
        st1.mhallocator.mheaps[j]? = demo_state.mhallocator.mheaps[j]?) ∧
      st1.mhallocator.mheaps[demo_state.mhallocator.next_id]?
        = some (.addr demo_state.heaps.length) ∧
      st1.heaps = demo_state.heaps ++
        [{ pool_id := (demo_state.mhallocator.next_id : Int), lhead := none, ltail := none,
           lsize := 0 }] ∧
      st1.arenas = demo_state.arenas ∧ st1.mem = demo_state.mem ∧
      st1.mhallocator.next_id = demo_state.mhallocator.next_id + 1 ∧
      (st1.mhallocator.mhsize = demo_state.mhallocator.mhsize ∨
        st1.mhallocator.mhsize = 2 * demo_state.mhallocator.mhsize) :=
  ⟨Reachable.init boot demo_state mh_init_allocator_demo,
   mh_new_id_frame demoEnv demo_state (Reachable.init boot demo_state mh_init_allocator_demo)⟩

/-- C6 (defect in the code, the one of C1).  After `mh_init_allocator` with a
directory capacity of at least 1, `mh_realloc(0, p, size)` returns no block
for any non-null `p` and any size: line 99 calls `mh_heap_malloc` on the
default heap, which has no arena, and the process stops inside
`mh_new_arena`, before line 103 reads the header of `p`.  When the two size
checks pass and `mmap` succeeds, it stops at line 202 by writing through the
null `prev`. -/
theorem mh_realloc_first_call_fatal (E : Env) (st0 : State) (fuel p size : Nat)
    (hcap : 1 ≤ E.MH_INITIAL_MHEAPS_NB) :
    ∃ st1, mh_init_allocator E st0 = .ret () st1 ∧
      ∃ f st2, mh_realloc E (fuel + 1) 0 (some p) size st1 = .fatal f st2 ∧
        (E.MH_DEFAULT_POOL_SIZE ≤ min_pool_sz E.MH_DEFAULT_POOL_SIZE E.HEADER_SZ size →
          min_pool_sz E.MH_DEFAULT_POOL_SIZE E.HEADER_SZ size % E.MH_DEFAULT_POOL_SIZE = 0 →
          (E.mmap st1.mem (min_pool_sz E.MH_DEFAULT_POOL_SIZE E.HEADER_SZ size)).1 ≠ none →
          f = .segv ∧ st2.arenas.length = st1.arenas.length + 1) := by
  have hok := dir_ok_init_dir E st0 hcap
  refine ⟨new_id_state (init_dir E st0), mh_init_allocator_eq E st0 hcap, ?_⟩
  have hok2 := dir_ok_new_id_state _ hok
  have hslot := new_id_state_slot _ hok
  have hheap := new_id_state_heap (init_dir E st0)
  have hn : (init_dir E st0).mhallocator.next_id = 0 := rfl
  rw [hn] at hslot hheap
  have hlt : (0 : Int) < ((new_id_state (init_dir E st0)).mhallocator.mhsize : Int) := by
    have := hok2.1
    omega
  have hslot0 : read_slot (new_id_state (init_dir E st0)) 0
      = .addr (init_dir E st0).heaps.length := by simpa using hslot
  obtain ⟨f, st2, hf, hseg⟩ := mh_heap_malloc_no_arena E _ _ _ fuel size hheap rfl rfl
  refine ⟨f, st2, ?_, hseg⟩
  rw [mh_realloc_valid_id E (fuel + 1) 0 (some p) size _ (le_refl 0) hlt, hslot0]
  exact Exec.bind_fatal hf

/-- C6, on the concrete environment: started from the zeroed process state,
`mh_init_allocator(); mh_realloc(0, p, 8)` with `p = 4128` stops with a
fault. -/
theorem mh_realloc_first_call_fatal_witness :
    1 ≤ demoEnv.MH_INITIAL_MHEAPS_NB ∧
    ∃ st1, mh_init_allocator demoEnv boot = .ret () st1 ∧
      ∃ f st2, mh_realloc demoEnv (0 + 1) 0 (some 4128) 8 st1 = .fatal f st2 ∧
        (demoEnv.MH_DEFAULT_POOL_SIZE
            ≤ min_pool_sz demoEnv.MH_DEFAULT_POOL_SIZE demoEnv.HEADER_SZ 8 →
          min_pool_sz demoEnv.MH_DEFAULT_POOL_SIZE demoEnv.HEADER_SZ 8
            % demoEnv.MH_DEFAULT_POOL_SIZE = 0 →
          (demoEnv.mmap st1.mem
            (min_pool_sz demoEnv.MH_DEFAULT_POOL_SIZE demoEnv.HEADER_SZ 8)).1 ≠ none →
          f = .segv ∧ st2.arenas.length = st1.arenas.length + 1) :=
  ⟨by decide, mh_realloc_first_call_fatal demoEnv boot 0 4128 8 (by decide)⟩

/-- C7.  For every id, size and state, `mh_realloc(id, NULL, size)` has the
same outcome as `mh_malloc(id, size)`: the same termination in the same
state, or the same returned pointer and the same resulting state. -/
theorem mh_realloc_null_eq_mh_malloc (E : Env) (fuel : Nat) (id : Int) (size : Nat)
    (st : State) : mh_realloc E fuel id none size st = mh_malloc E fuel id size st := by
  by_cases hc : id < 0 ∨ id ≥ (st.mhallocator.mhsize : Int)
  · simp [mh_realloc, mh_malloc, Exec.bind, hc]
  · have h0 : 0 ≤ id := by omega
    have h1 : id < st.mhallocator.mhsize := by omega
    rw [mh_realloc_valid_id E fuel id none size st h0 h1, mh_malloc_valid_id E fuel id size st h0 h1]
    exact Exec.bind_pure_right _ _

/-- C8.  For every id with `0 <= id < mhsize`, if `nmemb` or `size` is zero
then `mh_calloc(id, nmemb, size)` makes exactly the request
`mh_heap_malloc(mheaps[id], 1)`: it has the outcome of `mh_malloc(id, 1)`,
and the requested byte count is 1, not 0. -/
theorem mh_calloc_zero (E : Env) (fuel : Nat) (id : Int) (nmemb size : Nat) (st : State)
    (h0 : 0 ≤ id) (h1 : id < st.mhallocator.mhsize) (hz : nmemb = 0 ∨ size = 0) :
    mh_calloc E fuel id nmemb size st = mh_heap_malloc E fuel (read_slot st id) 1 st ∧
    mh_calloc E fuel id nmemb size st = mh_malloc E fuel id 1 st := by
  have h : mh_calloc E fuel id nmemb size st = mh_heap_malloc E fuel (read_slot st id) 1 st := by
    rw [mh_calloc_valid_id E fuel id nmemb size st h0 h1]
    simp [hz, SIZE_MOD]
  exact ⟨h, by rw [h, mh_malloc_valid_id E fuel id 1 st h0 h1]⟩

/-- C8, for `calloc(0, 0, 5)` in the state right after `mh_init_allocator`. -/
theorem mh_calloc_zero_witness :
    ((0 : Int) ≤ 0 ∧ (0 : Int) < demo_state.mhallocator.mhsize ∧ ((0 : Nat) = 0 ∨ (5 : Nat) = 0)) ∧
    (mh_calloc demoEnv 2 0 0 5 demo_state
        = mh_heap_malloc demoEnv 2 (read_slot demo_state 0) 1 demo_state ∧
     mh_calloc demoEnv 2 0 0 5 demo_state = mh_malloc demoEnv 2 0 1 demo_state) :=
  ⟨⟨by decide, by decide, by decide⟩,
   mh_calloc_zero demoEnv 2 0 0 5 demo_state (by decide) (by decide) (by decide)⟩

/-- C9.  `mh_get_id(NULL)` crashes with the diagnostic "getting id of null".
For a non-null `ptr`, `mh_get_id` crashes with "magic header is not correct"
when `smalloc_check_magic` rejects the header at `USER_TO_HEADER(ptr)`, and
otherwise returns that header's `pool_id`.  So the call is fatal if and only
if `ptr` is null or the magic is invalid, and in every case the state in
which it ends is the state it was called in. -/
theorem mh_get_id_spec (E : Env) (ptr : Option Nat) (p : Nat) (st : State) :
    mh_get_id E none st = .fatal (.crash .getid_null) st ∧
    mh_get_id E (some p) st
      = (if E.smalloc_check_magic st.mem (E.USER_TO_HEADER p) = true
          then .ret (E.hdr_pool_id st.mem (E.USER_TO_HEADER p)) st
          else .fatal (.crash .bad_magic) st) ∧
    ((mh_get_id E ptr st).isFatal = true ↔
      (ptr = none ∨
        ∃ q, ptr = some q ∧ E.smalloc_check_magic st.mem (E.USER_TO_HEADER q) = false)) ∧
    (mh_get_id E ptr st).final = some st := by
  have hnone : mh_get_id E none st = .fatal (.crash .getid_null) st := by
    simp [mh_get_id, Exec.bind, check]
  have hsome : ∀ q, mh_get_id E (some q) st
      = (if E.smalloc_check_magic st.mem (E.USER_TO_HEADER q) = true
          then .ret (E.hdr_pool_id st.mem (E.USER_TO_HEADER q)) st
          else .fatal (.crash .bad_magic) st) := by
    intro q
    cases hm : E.smalloc_check_magic st.mem (E.USER_TO_HEADER q) <;>
      simp [mh_get_id, Exec.bind, check, hm]
  refine ⟨hnone, hsome p, ?_, ?_⟩
  · cases ptr with
    | none => simp [hnone, Outcome.isFatal]
    | some q =>
      rw [hsome q]
      cases hm : E.smalloc_check_magic st.mem (E.USER_TO_HEADER q) <;>
        simp [Outcome.isFatal, hm]
  · cases ptr with
    | none => simp [hnone, Outcome.final]
    | some q =>
      rw [hsome q]
      cases hm : E.smalloc_check_magic st.mem (E.USER_TO_HEADER q) <;>
        simp [Outcome.final, hm]

/-- C10 (the claim as stated fails).  In `forged_state` the header of the
non-null pointer 4128 names heap id 7 while the directory has 4 slots, so no
slot is named by that id; `mh_free` stops at the check of line 115 with the
diagnostic "invalid id", in an unchanged state, instead of delegating to
`mh_heap_free`. -/
theorem mh_free_invalid_header_id :
    demoEnv.hdr_pool_id forged_state.mem (demoEnv.USER_TO_HEADER 4128) = 7 ∧
    forged_state.mhallocator.mhsize = 4 ∧
    forged_state.mhallocator.mheaps[7]? = none ∧
    mh_free demoEnv 3 (some 4128) forged_state = .fatal (.crash .invalid_id) forged_state ∧
    mh_free demoEnv 3 (some 4128) forged_state
      ≠ mh_heap_free demoEnv 3 (read_slot forged_state 7) (some 4128) forged_state := by
  have hid : demoEnv.hdr_pool_id forged_state.mem (demoEnv.USER_TO_HEADER 4128) = 7 := by
    simp [demoEnv, forged_state]
  have hfree : mh_free demoEnv 3 (some 4128) forged_state
      = .fatal (.crash .invalid_id) forged_state := by
    rw [mh_free_some, hid]
    rfl
  refine ⟨hid, rfl, rfl, hfree, ?_⟩
  rw [hfree]
  have hslot : read_slot forged_state 7 = .junk := rfl
  rw [hslot]
  simp [mh_heap_free, Exec.bind, check_null_heap]

/-- C10 (amended).  `mh_free(NULL)` is fatal ("calling free with null
pointer") and is not a no-op.  For a non-null `ptr` whose header names a heap
id with `0 <= id < mhsize`, `mh_free` has the outcome of `mh_heap_free` on
the heap pointer stored in directory slot `id`, which is the null-pointer
crash when that slot is null; for a header id outside that range it is fatal
("invalid id") in an unchanged state.  In every case the directory and the
heap objects are unchanged, no arena object is added or removed, and every
arena that is not on the arena list of the heap in slot `id` is unchanged, so
no other heap's arenas or occupancy counters change. -/
theorem mh_free_spec (E : Env) (fuel : Nat) (p : Nat) (st : State) :
    mh_free E fuel none st = .fatal (.crash .free_null) st ∧
    mh_free E fuel none st ≠ .ret () st ∧
    mh_free E fuel (some p) st
      = (if 0 ≤ E.hdr_pool_id st.mem (E.USER_TO_HEADER p) ∧
            E.hdr_pool_id st.mem (E.USER_TO_HEADER p) < st.mhallocator.mhsize
          then mh_heap_free E fuel (read_slot st (E.hdr_pool_id st.mem (E.USER_TO_HEADER p)))
            (some p) st
          else .fatal (.crash .invalid_id) st) ∧
    mh_heap_free E fuel .null (some p) st = .fatal (.crash .ptr_is_null) st ∧
    (∀ s1, (mh_free E fuel (some p) st).final = some s1 →
      s1.mhallocator = st.mhallocator ∧ s1.heaps = st.heaps ∧
      s1.arenas.length = st.arenas.length ∧
      ∀ a, (∀ h hp, read_slot st (E.hdr_pool_id st.mem (E.USER_TO_HEADER p)) = .addr h →
          st.heaps[h]? = some hp → a ∉ arena_chain st.arenas fuel hp.lhead) →
        s1.arenas[a]? = st.arenas[a]?) := by
  refine ⟨mh_free_null E fuel st, ?_, mh_free_some E fuel p st, ?_, ?_⟩
  · rw [mh_free_null]; simp
  · simp [mh_heap_free, Exec.bind, check_null_heap]
  · intro s1 hfin
    have hA : ignores_arenas (fun s : State => (s.mhallocator, s.heaps)) := fun _ _ => rfl
    have hM : ignores_mem (fun s : State => (s.mhallocator, s.heaps)) := fun _ _ => rfl
    have hk := keeps_final (mh_free_keeps hA hM E fuel (some p) st rfl) hfin
    simp only [Prod.mk.injEq] at hk
    refine ⟨hk.1, hk.2, ?_⟩
    rw [mh_free_some] at hfin
    split at hfin
    · exact mh_heap_free_frame E fuel _ p st s1 hfin
    · simp [Outcome.final] at hfin
      subst hfin
      exact ⟨rfl, fun _ _ => rfl⟩

/-- C10 (amended), at the live block 4128 of heap 0 in `busy_state`. -/
theorem mh_free_spec_witness :
    mh_free demoEnv 3 none busy_state = .fatal (.crash .free_null) busy_state ∧
    mh_free demoEnv 3 none busy_state ≠ .ret () busy_state ∧
    mh_free demoEnv 3 (some 4128) busy_state
      = (if 0 ≤ demoEnv.hdr_pool_id busy_state.mem (demoEnv.USER_TO_HEADER 4128) ∧
            demoEnv.hdr_pool_id busy_state.mem (demoEnv.USER_TO_HEADER 4128)
              < busy_state.mhallocator.mhsize
          then mh_heap_free demoEnv 3
            (read_slot busy_state (demoEnv.hdr_pool_id busy_state.mem (demoEnv.USER_TO_HEADER 4128)))
            (some 4128) busy_state
          else .fatal (.crash .invalid_id) busy_state) ∧
    mh_heap_free demoEnv 3 .null (some 4128) busy_state
      = .fatal (.crash .ptr_is_null) busy_state ∧
    (∀ s1, (mh_free demoEnv 3 (some 4128) busy_state).final = some s1 →
      s1.mhallocator = busy_state.mhallocator ∧ s1.heaps = busy_state.heaps ∧
      s1.arenas.length = busy_state.arenas.length ∧
      ∀ a, (∀ h hp,
          read_slot busy_state (demoEnv.hdr_pool_id busy_state.mem (demoEnv.USER_TO_HEADER 4128))
            = .addr h →
          busy_state.heaps[h]? = some hp → a ∉ arena_chain busy_state.arenas 3 hp.lhead) →
        s1.arenas[a]? = busy_state.arenas[a]?) :=
  mh_free_spec demoEnv 3 4128 busy_state

theorem mh_free_busy_state :
    ∃ s1, mh_free demoEnv 3 (some 4128) busy_state = .ret () s1 ∧
      s1.arenas[0]?.map (fun ar => ar.num_elem) = some 0 ∧
      s1.arenas[1]? = busy_state.arenas[1]? ∧ s1.mem 4096 = 0 := by
  refine ⟨_, rfl, ?_, ?_, ?_⟩ <;> rfl

/-! ## The scan of `mh_heap_free` -/

theorem free_scan_first (E : Env) (p : Nat) (n : Nat) :
    ∀ (start : Option Nat) (st : State) (pre post : List Nat) (a : Nat),
      arena_chain st.arenas n start = pre ++ a :: post →
      (∀ b ∈ pre, claims E st p b = false) → claims E st p a = true →
      ∃ ar, st.arenas[a]? = some ar ∧
        free_scan E p n start st = .ret true (freed_state E st p a ar) := by
  induction n with
  | zero =>
    intro start st pre post a hch
    cases start <;> simp [arena_chain] at hch
  | succ n ih =>
    intro start st pre post a hch hpre ha
    cases start with
    | none => simp [arena_chain] at hch
    | some a0 =>
      cases har : st.arenas[a0]? with
      | none =>
        simp only [arena_chain, har] at hch
        cases pre with
        | nil =>
          simp at hch
          obtain ⟨h1, -⟩ := hch
          subst h1
          simp [claims, har] at ha
        | cons b pre1 => simp at hch
      | some ar =>
        have hlt : a0 < st.arenas.length := by
          rcases Nat.lt_or_ge a0 st.arenas.length with h1 | h1
          · exact h1
          · simp [List.getElem?_eq_none h1] at har
        simp only [arena_chain, har] at hch
        cases pre with
        | nil =>
          simp at hch
          obtain ⟨h1, -⟩ := hch
          subst h1
          have hc : E.smalloc_is_alloc ar.pool (E.USER_TO_HEADER p) st.mem = true := by
            simpa [claims, har] using ha
          refine ⟨ar, har, ?_⟩
          simp [free_scan, Exec.bind, load_arena, store_arena, har, hc, hlt, freed_state]
        | cons b pre1 =>
          simp at hch
          obtain ⟨h1, h2⟩ := hch
          subst h1
          have hb := hpre a0 (by simp)
          have hc : ¬ E.smalloc_is_alloc ar.pool (E.USER_TO_HEADER p) st.mem = true := by
            simpa [claims, har] using hb
          have hrec : free_scan E p (n + 1) (some a0) st = free_scan E p n ar.next st := by
            simp [free_scan, Exec.bind, load_arena, har, hc]
          rw [hrec]
          exact ih ar.next st pre1 post a h2 (fun b hb => hpre b (by simp [hb])) ha

theorem free_scan_none (E : Env) (p : Nat) (n : Nat) :
    ∀ (start : Option Nat) (st : State),
      chain_complete st.arenas n start = true →
      (∀ b ∈ arena_chain st.arenas n start, claims E st p b = false) →
      free_scan E p n start st = .ret false st := by
  induction n with
  | zero =>
    intro start st hc _
    cases start with
    | none => simp [free_scan]
    | some a => simp [chain_complete] at hc
  | succ n ih =>
    intro start st hc hno
    cases start with
    | none => simp [free_scan]
    | some a0 =>
      cases har : st.arenas[a0]? with
      | none => simp [chain_complete, har] at hc
      | some ar =>
        simp only [chain_complete, har] at hc
        simp only [arena_chain, har] at hno
        have hb := hno a0 (by simp)
        have hcl : ¬ E.smalloc_is_alloc ar.pool (E.USER_TO_HEADER p) st.mem = true := by
          simpa [claims, har] using hb
        have hrec : free_scan E p (n + 1) (some a0) st = free_scan E p n ar.next st := by
          simp [free_scan, Exec.bind, load_arena, har, hcl]
        rw [hrec]
        exact ih ar.next st hc (fun b hb => hno b (by simp [hb]))

theorem mh_heap_free_claimed (E : Env) (fuel h p : Nat) (hp : mh_heap) (st : State)
    (pre post : List Nat) (a : Nat) (hh : st.heaps[h]? = some hp)
    (hch : arena_chain st.arenas fuel hp.lhead = pre ++ a :: post)
    (hpre : ∀ b ∈ pre, claims E st p b = false) (ha : claims E st p a = true) :
    ∃ ar, st.arenas[a]? = some ar ∧
      mh_heap_free E fuel (.addr h) (some p) st = .ret () (freed_state E st p a ar) := by
  obtain ⟨ar, har, hscan⟩ := free_scan_first E p fuel hp.lhead st pre post a hch hpre ha
  refine ⟨ar, har, ?_⟩
  simp only [mh_heap_free, bind_apply, Exec.bind, check_null_heap, check_null, pure_apply,
    load_heap, hh, hscan]
  rfl

theorem mh_heap_free_unclaimed (E : Env) (fuel h p : Nat) (hp : mh_heap) (st : State)
    (hh : st.heaps[h]? = some hp)
    (hc : chain_complete st.arenas fuel hp.lhead = true)
    (hno : ∀ b ∈ arena_chain st.arenas fuel hp.lhead, claims E st p b = false) :
    mh_heap_free E fuel (.addr h) (some p) st = .fatal (.crash .unable_to_free) st := by
  have hscan := free_scan_none E p fuel hp.lhead st hc hno
  simp only [mh_heap_free, bind_apply, Exec.bind, check_null_heap, check_null, pure_apply,
    load_heap, hh, hscan]
  rfl

/-- C12.  Let `heap` be a heap object whose arena list, followed from `lhead`
through the `next` pointers, is `pre ++ a :: post`.  If no arena of `pre`
reports `ptr` as a live allocation and `a` does, then `mh_heap_free(heap,
ptr)` returns after the pool engine of `a` freed `ptr`: `num_elem` of `a` is
one less, the links `parent`, `prev`, `next` of `a` are as before, every
other arena object is unchanged, and so are the heap objects and the
directory.  If the list ends in null and none of its arenas reports `ptr` as
live, the call is fatal ("Unable to free") in the unchanged state. -/
theorem mh_heap_free_spec (E : Env) (fuel h p : Nat) (hp : mh_heap) (st : State)
    (hh : st.heaps[h]? = some hp) :
    (∀ (pre post : List Nat) (a : Nat),
      arena_chain st.arenas fuel hp.lhead = pre ++ a :: post →
      (∀ b ∈ pre, claims E st p b = false) → claims E st p a = true →
      ∃ ar s1, st.arenas[a]? = some ar ∧
        mh_heap_free E fuel (.addr h) (some p) st = .ret () s1 ∧
        s1.mem = (E.sm_free_pool ar.pool p st.mem).2 ∧
        s1.arenas[a]? = some { ar with pool := (E.sm_free_pool ar.pool p st.mem).1,
                                       num_elem := ar.num_elem - 1 } ∧
        (∀ b, b ≠ a → s1.arenas[b]? = st.arenas[b]?) ∧
        s1.arenas.length = st.arenas.length ∧
        s1.heaps = st.heaps ∧ s1.mhallocator = st.mhallocator) ∧
    (chain_complete st.arenas fuel hp.lhead = true →
      (∀ b ∈ arena_chain st.arenas fuel hp.lhead, claims E st p b = false) →
      mh_heap_free E fuel (.addr h) (some p) st = .fatal (.crash .unable_to_free) st) := by
  refine ⟨?_, mh_heap_free_unclaimed E fuel h p hp st hh⟩
  intro pre post a hch hpre ha
  obtain ⟨ar, har, hfree⟩ := mh_heap_free_claimed E fuel h p hp st pre post a hh hch hpre ha
  have hlt : a < st.arenas.length := by
    rcases Nat.lt_or_ge a st.arenas.length with h1 | h1
    · exact h1
    · simp [List.getElem?_eq_none h1] at har
  refine ⟨ar, _, har, hfree, rfl, ?_, ?_, ?_, rfl, rfl⟩
  · simp [freed_state, hlt]
  · intro b hb
    simp [freed_state, List.getElem?_set_ne (Ne.symm hb)]
  · simp [freed_state]

/-- C12, in `busy_state`: heap 0 has the arena list `[0]`; arena 0 reports the
block 4128 as live, and no arena reports the address 9999 as live. -/
theorem mh_heap_free_spec_witness :
    (busy_state.heaps[0]? = some { pool_id := 0, lhead := some 0, ltail := some 0, lsize := 1 } ∧
    arena_chain busy_state.arenas 3 (some 0) = [] ++ 0 :: [] ∧
    claims demoEnv busy_state 4128 0 = true ∧
    ∃ ar s1, busy_state.arenas[0]? = some ar ∧
      mh_heap_free demoEnv 3 (.addr 0) (some 4128) busy_state = .ret () s1 ∧
      s1.mem = (demoEnv.sm_free_pool ar.pool 4128 busy_state.mem).2 ∧
      s1.arenas[0]? = some { ar with pool := (demoEnv.sm_free_pool ar.pool 4128 busy_state.mem).1,
                                     num_elem := ar.num_elem - 1 } ∧
      (∀ b, b ≠ 0 → s1.arenas[b]? = busy_state.arenas[b]?) ∧
      s1.arenas.length = busy_state.arenas.length ∧
      s1.heaps = busy_state.heaps ∧ s1.mhallocator = busy_state.mhallocator) ∧
    (chain_complete busy_state.arenas 3 (some 0) = true ∧
     (∀ b ∈ arena_chain busy_state.arenas 3 (some 0), claims demoEnv busy_state 9999 b = false) ∧
     mh_heap_free demoEnv 3 (.addr 0) (some 9999) busy_state
       = .fatal (.crash .unable_to_free) busy_state) :=
  ⟨⟨rfl, rfl, rfl,
    (mh_heap_free_spec demoEnv 3 0 4128
      { pool_id := 0, lhead := some 0, ltail := some 0, lsize := 1 } busy_state rfl).1
      [] [] 0 rfl (fun b hb => absurd hb (List.not_mem_nil b)) rfl⟩,
   ⟨rfl, by decide,
    (mh_heap_free_spec demoEnv 3 0 9999
      { pool_id := 0, lhead := some 0, ltail := some 0, lsize := 1 } busy_state rfl).2
      rfl (by decide)⟩⟩

/-! ## `mh_free` does not look at the magic -/

theorem free_scan_magic_irrelevant (E : Env) (g : Mem → Nat → Bool) (p n : Nat) :
    ∀ (a : Option Nat) (s : State),
      free_scan { E with smalloc_check_magic := g } p n a s = free_scan E p n a s := by
  induction n with
  | zero => intro a s; cases a <;> rfl
  | succ n ih =>
    intro a s
    cases a with
    | none => rfl
    | some a0 =>
      cases har : s.arenas[a0]? with
      | none => simp [free_scan, Exec.bind, load_arena, har]
      | some ar =>
        by_cases hc : E.smalloc_is_alloc ar.pool (E.USER_TO_HEADER p) s.mem = true
        · simp [free_scan, Exec.bind, load_arena, har, hc]
        · simp [free_scan, Exec.bind, load_arena, har, hc, ih]

theorem mh_heap_free_magic_irrelevant (E : Env) (g : Mem → Nat → Bool) (fuel : Nat)
    (heap : heap_ptr) (ptr : Option Nat) (s : State) :
    mh_heap_free { E with smalloc_check_magic := g } fuel heap ptr s
      = mh_heap_free E fuel heap ptr s := by
  cases ptr with
  | none => rfl
  | some p =>
    simp only [mh_heap_free, bind_apply, Exec.bind]
    cases check_null_heap heap s with
    | ret u s1 =>
      simp only [check_null, pure_apply]
      cases load_heap heap s1 with
      | ret hp s2 => simp only [free_scan_magic_irrelevant]
      | fatal f s2 => rfl
      | nofuel => rfl
    | fatal f s1 => rfl
    | nofuel => rfl

theorem mh_free_magic_irrelevant (E : Env) (g : Mem → Nat → Bool) (fuel : Nat)
    (ptr : Option Nat) (s : State) :
    mh_free { E with smalloc_check_magic := g } fuel ptr s = mh_free E fuel ptr s := by
  cases ptr with
  | none => rfl
  | some p =>
    rw [mh_free_some, mh_free_some]
    simp only [mh_heap_free_magic_irrelevant]

theorem no_magic_fault_bind {α β : Type} {m : Exec α} {f : α → Exec β} {s : State}
    (hm : (m s).no_magic_fault) (hf : ∀ a s1, (f a s1).no_magic_fault) :
    ((m >>= f) s).no_magic_fault :=
  post_bind hm (fun a s1 _ => hf a s1)

theorem no_magic_fault_ret {α : Type} (a : α) (s : State) :
    (Outcome.ret a s).no_magic_fault := trivial

theorem no_magic_fault_fatal {α : Type} (f : Fault) (h : f ≠ .crash .bad_magic) (s : State) :
    (Outcome.fatal f s : Outcome α).no_magic_fault := ⟨trivial, h⟩

theorem no_magic_fault_check (v : Bool) (d : Diag) (hd : d ≠ .bad_magic) (s : State) :
    (check v d s).no_magic_fault := by
  cases v
  · exact no_magic_fault_fatal _ (by simpa using hd) _
  · exact no_magic_fault_ret _ _

theorem no_magic_fault_check_null (p : Option Nat) (s : State) :
    (check_null p s).no_magic_fault := by
  cases p
  · exact no_magic_fault_fatal _ (by decide) _
  · exact no_magic_fault_ret _ _

theorem no_magic_fault_check_null_heap (p : heap_ptr) (s : State) :
    (check_null_heap p s).no_magic_fault := by
  cases p
  · exact no_magic_fault_fatal _ (by decide) _
  · exact no_magic_fault_ret _ _
  · exact no_magic_fault_fatal _ (by decide) _

theorem no_magic_fault_load_heap (p : heap_ptr) (s : State) :
    (load_heap p s).no_magic_fault := by
  unfold load_heap
  split <;> (try split) <;> simp [Outcome.no_magic_fault, Outcome.post]

theorem no_magic_fault_load_arena (p : Option Nat) (s : State) :
    (load_arena p s).no_magic_fault := by
  unfold load_arena
  split <;> (try split) <;> simp [Outcome.no_magic_fault, Outcome.post]

theorem no_magic_fault_store_arena (p : Option Nat) (v : mh_arena) (s : State) :
    (store_arena p v s).no_magic_fault := by
  unfold store_arena
  split <;> (try split) <;> simp [Outcome.no_magic_fault, Outcome.post]

theorem free_scan_no_magic_fault (E : Env) (ptr : Nat) (n : Nat) :
    ∀ (a : Option Nat) (s : State), (free_scan E ptr n a s).no_magic_fault := by
  induction n with
  | zero =>
    intro a s
    cases a <;> simp [free_scan, Outcome.no_magic_fault, Outcome.post]
  | succ n ih =>
    intro a s
    cases a with
    | none => simp [free_scan, Outcome.no_magic_fault, Outcome.post]
    | some a =>
      unfold free_scan
      refine no_magic_fault_bind (no_magic_fault_load_arena _ _) (fun ar s1 => ?_)
      refine no_magic_fault_bind (no_magic_fault_ret _ _) (fun st s2 => ?_)
      split
      · refine no_magic_fault_bind (no_magic_fault_ret _ _) (fun _ s3 => ?_)
        refine no_magic_fault_bind (no_magic_fault_store_arena _ _ _) (fun _ s4 => ?_)
        refine no_magic_fault_bind (no_magic_fault_load_arena _ _) (fun ar2 s5 => ?_)
        refine no_magic_fault_bind (no_magic_fault_store_arena _ _ _) (fun _ s6 => ?_)
        exact no_magic_fault_ret _ _
      · exact ih _ _

theorem mh_heap_free_no_magic_fault (E : Env) (fuel : Nat) (heap : heap_ptr)
    (ptr : Option Nat) (s : State) : (mh_heap_free E fuel heap ptr s).no_magic_fault := by
  unfold mh_heap_free
  refine no_magic_fault_bind (no_magic_fault_check_null_heap _ _) (fun _ s1 => ?_)
  refine no_magic_fault_bind (no_magic_fault_check_null _ _) (fun _ s2 => ?_)
  cases ptr with
  | none => exact no_magic_fault_fatal _ (by decide) _
  | some p =>
    refine no_magic_fault_bind (no_magic_fault_load_heap _ _) (fun hp s3 => ?_)
    refine no_magic_fault_bind (free_scan_no_magic_fault E p fuel _ _) (fun found s4 => ?_)
    cases found
    · exact no_magic_fault_check _ _ (by decide) _
    · exact no_magic_fault_ret _ _

theorem mh_free_no_magic_fault (E : Env) (fuel : Nat) (p : Nat) (s : State) :
    (mh_free E fuel (some p) s).no_magic_fault := by
  rw [mh_free_some]
  split
  · exact mh_heap_free_no_magic_fault E fuel _ _ _
  · exact no_magic_fault_fatal _ (by decide) _

/-- C11 (the claim as stated fails).  In the state right after
`mh_init_allocator` the header of the non-null pointer 4128 has an invalid
magic, yet `mh_free` takes heap id 0 from that header, enters heap 0 and
stops with "Unable to free", not with the magic diagnostic.  In
`stale_state` the header of 9032 has an invalid magic too, and
`mh_realloc(1, 9032, 10)` first obtains the block 8224 from heap 1 and copies
the 5 bytes that the header gives as usable size (the byte 77 arrives at
8224) before its `mh_free` stops with "Unable to free". -/
theorem mh_free_bad_magic_not_checked :
    (demoEnv.smalloc_check_magic demo_state.mem (demoEnv.USER_TO_HEADER 4128) = false ∧
      mh_free demoEnv 1 (some 4128) demo_state
        = .fatal (.crash .unable_to_free) demo_state ∧
      mh_free demoEnv 1 (some 4128) demo_state ≠ .fatal (.crash .bad_magic) demo_state) ∧
    (demoEnv.smalloc_check_magic stale_state.mem (demoEnv.USER_TO_HEADER 9032) = false ∧
      stale_state.mem 8224 = 0 ∧
      ∃ s, mh_realloc demoEnv 3 1 (some 9032) 10 stale_state
          = .fatal (.crash .unable_to_free) s ∧
        s.mem 8224 = 77 ∧ s.mem 8192 = 1) := by
  have h1 : mh_free demoEnv 1 (some 4128) demo_state
      = .fatal (.crash .unable_to_free) demo_state := rfl
  refine ⟨⟨rfl, h1, ?_⟩, rfl, rfl, _, rfl, rfl, rfl⟩
  rw [h1]
  simp

/-- C11 (amended).  `mh_free` performs no magic validation: for every
non-null `ptr` its outcome is the same whatever `smalloc_check_magic`
answers, and it never stops with the magic diagnostic.  It reads the heap id
from the header of `ptr` and stops with "invalid id" when that id is outside
`[0, mhsize)`, with the null-pointer diagnostic when the slot of that id is
null, and with "Unable to free" when the arena list of the heap in that slot
ends in null and none of its arenas reports `ptr` as live; in each of these
cases the state is unchanged, so nothing is freed and no `num_elem` is
decremented. -/
theorem mh_free_unvalidated (E : Env) (fuel p : Nat) (st : State) (g : Mem → Nat → Bool) :
    mh_free { E with smalloc_check_magic := g } fuel (some p) st = mh_free E fuel (some p) st ∧
    (mh_free E fuel (some p) st).no_magic_fault ∧
    (¬ (0 ≤ E.hdr_pool_id st.mem (E.USER_TO_HEADER p) ∧
        E.hdr_pool_id st.mem (E.USER_TO_HEADER p) < st.mhallocator.mhsize) →
      mh_free E fuel (some p) st = .fatal (.crash .invalid_id) st) ∧
    ((0 ≤ E.hdr_pool_id st.mem (E.USER_TO_HEADER p) ∧
        E.hdr_pool_id st.mem (E.USER_TO_HEADER p) < st.mhallocator.mhsize) →
      read_slot st (E.hdr_pool_id st.mem (E.USER_TO_HEADER p)) = .null →
      mh_free E fuel (some p) st = .fatal (.crash .ptr_is_null) st) ∧
    (∀ h hp, (0 ≤ E.hdr_pool_id st.mem (E.USER_TO_HEADER p) ∧
        E.hdr_pool_id st.mem (E.USER_TO_HEADER p) < st.mhallocator.mhsize) →
      read_slot st (E.hdr_pool_id st.mem (E.USER_TO_HEADER p)) = .addr h →
      st.heaps[h]? = some hp →
      chain_complete st.arenas fuel hp.lhead = true →
      (∀ b ∈ arena_chain st.arenas fuel hp.lhead, claims E st p b = false) →
      mh_free E fuel (some p) st = .fatal (.crash .unable_to_free) st) := by
  refine ⟨mh_free_magic_irrelevant E g fuel (some p) st, mh_free_no_magic_fault E fuel p st,
    ?_, ?_, ?_⟩
  · intro hr
    rw [mh_free_some, if_neg hr]
  · intro hr hs
    rw [mh_free_some, if_pos hr, hs]
    simp [mh_heap_free, Exec.bind, check_null_heap]
  · intro h hp hr hs hh hc hno
    rw [mh_free_some, if_pos hr, hs]
    exact mh_heap_free_unclaimed E fuel h p hp st hh hc hno

/-- C11 (amended), at three pointers with an invalid magic: one whose header
names heap id 7 of 4 (`forged_state`), one whose header names the null slot
1, and one whose header names heap 0, which has no arena. -/
theorem mh_free_unvalidated_witness :
    (¬ (0 ≤ demoEnv.hdr_pool_id forged_state.mem (demoEnv.USER_TO_HEADER 4128) ∧
        demoEnv.hdr_pool_id forged_state.mem (demoEnv.USER_TO_HEADER 4128)
          < forged_state.mhallocator.mhsize) ∧
      mh_free demoEnv 3 (some 4128) forged_state = .fatal (.crash .invalid_id) forged_state) ∧
    ((0 ≤ demoEnv.hdr_pool_id null_slot_state.mem (demoEnv.USER_TO_HEADER 33) ∧
        demoEnv.hdr_pool_id null_slot_state.mem (demoEnv.USER_TO_HEADER 33)
          < null_slot_state.mhallocator.mhsize) ∧
      read_slot null_slot_state
        (demoEnv.hdr_pool_id null_slot_state.mem (demoEnv.USER_TO_HEADER 33)) = .null ∧
      mh_free demoEnv 3 (some 33) null_slot_state
        = .fatal (.crash .ptr_is_null) null_slot_state) ∧
    ((0 ≤ demoEnv.hdr_pool_id demo_state.mem (demoEnv.USER_TO_HEADER 4128) ∧
        demoEnv.hdr_pool_id demo_state.mem (demoEnv.USER_TO_HEADER 4128)
          < demo_state.mhallocator.mhsize) ∧
      read_slot demo_state
        (demoEnv.hdr_pool_id demo_state.mem (demoEnv.USER_TO_HEADER 4128)) = .addr 0 ∧
      chain_complete demo_state.arenas 3 none = true ∧
      mh_free demoEnv 3 (some 4128) demo_state
        = .fatal (.crash .unable_to_free) demo_state) :=
  ⟨⟨by decide,
    (mh_free_unvalidated demoEnv 3 4128 forged_state (fun _ _ => true)).2.2.1 (by decide)⟩,
   ⟨by decide, rfl,
    (mh_free_unvalidated demoEnv 3 33 null_slot_state (fun _ _ => true)).2.2.2.1
      (by decide) rfl⟩,
   ⟨by decide, rfl, rfl,
    (mh_free_unvalidated demoEnv 3 4128 demo_state (fun _ _ => true)).2.2.2.2 0
      { pool_id := 0, lhead := none, ltail := none, lsize := 0 } (by decide) rfl rfl rfl
      (fun b hb => absurd hb (List.not_mem_nil b))⟩⟩

/-- C13 (defect in the code, the root of C1).  On a heap whose `ltail` is
null, in particular on a freshly initialised heap, `mh_new_arena` with a
size that passes the two checks and a successful `mmap` does not append the
arena: the test of line 195, `parent->lhead == NULL && parent->ltail`, is
false, the else branch sets `ltail` to the new arena and then writes
`prev->next` through the null `prev` at line 202.  The process stops there,
with `lhead` still null and `lsize` not incremented. -/
theorem mh_new_arena_empty_heap_faults (E : Env) (st : State) (h : Nat) (hp : mh_heap)
    (ps r : Nat) (hh : st.heaps[h]? = some hp) (ht : hp.ltail = none)
    (c1 : E.MH_DEFAULT_POOL_SIZE ≤ ps) (c2 : ps % E.MH_DEFAULT_POOL_SIZE = 0)
    (c3 : (E.mmap st.mem ps).1 = some r) :
    mh_new_arena E (.addr h) ps st = .fatal .segv
      { st with
        heaps := st.heaps.set h { hp with ltail := some st.arenas.length },
        arenas := st.arenas ++ [
          { parent := .addr h, prev := none, next := none, num_elem := 0,
            pool := { pool := some r, pool_size := ps, do_zero := 1, oomfn := none } }],
        mem := (E.mmap st.mem ps).2 } := by
  have hlt : h < st.heaps.length := by
    rcases Nat.lt_or_ge h st.heaps.length with h1 | h1
    · exact h1
    · simp [List.getElem?_eq_none h1] at hh
  simp [mh_new_arena, Exec.bind, check, check_null, check_null_heap, store_arena,
    load_arena, load_heap, store_heap, c1, c2, c3, hh, ht, hlt]

/-- C13, on the default heap right after `mh_init_allocator`, with the
default pool size 4096. -/
theorem mh_new_arena_empty_heap_faults_witness :
    (demo_state.heaps[0]? = some { pool_id := 0, lhead := none, ltail := none, lsize := 0 } ∧
     demoEnv.MH_DEFAULT_POOL_SIZE ≤ 4096 ∧ 4096 % demoEnv.MH_DEFAULT_POOL_SIZE = 0 ∧
     (demoEnv.mmap demo_state.mem 4096).1 = some 4096) ∧
    mh_new_arena demoEnv (.addr 0) 4096 demo_state = .fatal .segv
      { demo_state with
        heaps := demo_state.heaps.set 0
          { pool_id := 0, lhead := none, ltail := some demo_state.arenas.length, lsize := 0 },
        arenas := demo_state.arenas ++ [
          { parent := .addr 0, prev := none, next := none, num_elem := 0,
            pool := { pool := some 4096, pool_size := 4096, do_zero := 1, oomfn := none } }],
        mem := (demoEnv.mmap demo_state.mem 4096).2 } :=
  ⟨⟨rfl, by decide, by decide, rfl⟩,
   mh_new_arena_empty_heap_faults demoEnv demo_state 0
     { pool_id := 0, lhead := none, ltail := none, lsize := 0 } 4096 4096 rfl rfl
     (by decide) (by decide) rfl⟩

/-! ## The scan of `mh_heap_malloc` -/

theorem getElem?_lt_length {α : Type} {l : List α} {i : Nat} {x : α} (h : l[i]? = some x) :
    i < l.length := by
  rcases Nat.lt_or_ge i l.length with h1 | h1
  · exact h1
  · simp [List.getElem?_eq_none h1] at h

theorem arena_chain_set (arenas : List mh_arena) (a : Nat) (ar ar1 : mh_arena)
    (h : arenas[a]? = some ar) (hn : ar1.next = ar.next) :
    ∀ (n : Nat) (start : Option Nat),
      arena_chain (arenas.set a ar1) n start = arena_chain arenas n start := by
  have hlt := getElem?_lt_length h
  intro n
  induction n with
  | zero => intro start; cases start <;> rfl
  | succ n ih =>
    intro start
    cases start with
    | none => rfl
    | some b =>
      by_cases hb : a = b
      · subst hb
        simp [arena_chain, h, hlt, hn, ih]
      · simp only [arena_chain, List.getElem?_set_ne hb]
        cases arenas[b]? with
        | none => rfl
        | some x => simp [ih]

theorem chain_complete_set (arenas : List mh_arena) (a : Nat) (ar ar1 : mh_arena)
    (h : arenas[a]? = some ar) (hn : ar1.next = ar.next) :
    ∀ (n : Nat) (start : Option Nat),
      chain_complete (arenas.set a ar1) n start = chain_complete arenas n start := by
  have hlt := getElem?_lt_length h
  intro n
  induction n with
  | zero => intro start; cases start <;> rfl
  | succ n ih =>
    intro start
    cases start with
    | none => rfl
    | some b =>
      by_cases hb : a = b
      · subst hb
        simp [chain_complete, h, hlt, hn, ih]
      · simp only [chain_complete, List.getElem?_set_ne hb]
        cases arenas[b]? with
        | none => rfl
        | some x => simp [ih]

theorem malloc_scan_step (E : Env) (h : Nat) (hp : mh_heap) (size n a0 : Nat) (ar : mh_arena)
    (st : State) (hh : st.heaps[h]? = some hp) (har : st.arenas[a0]? = some ar) :
    malloc_scan E (.addr h) size (n + 1) (some a0) st
      = (match (E.sm_malloc_pool hp.pool_id ar.pool size st.mem).1 with
        | some p => .ret (some p)
            { st with
              mem := (E.sm_malloc_pool hp.pool_id ar.pool size st.mem).2.2,
              arenas := st.arenas.set a0
                { ar with pool := (E.sm_malloc_pool hp.pool_id ar.pool size st.mem).2.1 } }
        | none => malloc_scan E (.addr h) size n ar.next
            { st with
              mem := (E.sm_malloc_pool hp.pool_id ar.pool size st.mem).2.2,
              arenas := st.arenas.set a0
                { ar with pool := (E.sm_malloc_pool hp.pool_id ar.pool size st.mem).2.1 } }) := by
  have hlt := getElem?_lt_length har
  simp only [malloc_scan, bind_apply, Exec.bind, load_heap, hh, load_arena, har,
    getState_apply, modifyState_apply, store_arena, hlt, if_true]
  cases (E.sm_malloc_pool hp.pool_id ar.pool size st.mem).1 <;> rfl

theorem malloc_scan_eq (E : Env) (h : Nat) (hp : mh_heap) (size : Nat) (n : Nat) :
    ∀ (start : Option Nat) (st : State) (res : scan_result),
      st.heaps[h]? = some hp →
      pool_scan E hp.pool_id size (arena_chain st.arenas n start) st.arenas st.mem = some res →
      (res.block ≠ none ∨ chain_complete st.arenas n start = true) →
      malloc_scan E (.addr h) size n start st
        = .ret res.block { st with arenas := res.arenas, mem := res.mem } := by
  induction n with
  | zero =>
    intro start st res hh hscan hc
    cases start with
    | none =>
      simp [arena_chain, pool_scan] at hscan
      subst hscan
      rfl
    | some a =>
      simp [arena_chain, pool_scan] at hscan
      subst hscan
      simp [chain_complete] at hc
  | succ n ih =>
    intro start st res hh hscan hc
    cases start with
    | none =>
      simp [arena_chain, pool_scan] at hscan
      subst hscan
      rfl
    | some a0 =>
      cases har : st.arenas[a0]? with
      | none => simp [arena_chain, har, pool_scan] at hscan
      | some ar =>
        rw [malloc_scan_step E h hp size n a0 ar st hh har]
        simp only [arena_chain, har, pool_scan] at hscan
        cases hr : (E.sm_malloc_pool hp.pool_id ar.pool size st.mem).1 with
        | some p =>
          simp only [hr, Option.some.injEq] at hscan
          subst hscan
          rfl
        | none =>
          simp only [hr, Option.map_eq_some'] at hscan
          obtain ⟨x, hx, hres⟩ := hscan
          subst hres
          have hnext : ({ ar with
              pool := (E.sm_malloc_pool hp.pool_id ar.pool size st.mem).2.1 } : mh_arena).next
              = ar.next := rfl
          have := ih ar.next
            { st with
              mem := (E.sm_malloc_pool hp.pool_id ar.pool size st.mem).2.2,
              arenas := st.arenas.set a0
                { ar with pool := (E.sm_malloc_pool hp.pool_id ar.pool size st.mem).2.1 } }
            x hh
            (by simpa only [arena_chain_set st.arenas a0 ar _ har hnext] using hx)
            (by
              rcases hc with hc | hc
              · left; exact hc
              · right
                simp only [chain_complete, har] at hc
                simpa only [chain_complete_set st.arenas a0 ar _ har hnext] using hc)
          rw [this]

theorem set_pool_links (arenas : List mh_arena) (a : Nat) (ar : mh_arena) (q : smalloc_pool)
    (h : arenas[a]? = some ar) (b : Nat) :
    ((arenas.set a { ar with pool := q })[b]?).map arena_links
      = (arenas[b]?).map arena_links := by
  have hlt := getElem?_lt_length h
  by_cases hb : a = b
  · subst hb
    simp [h, hlt, arena_links]
  · rw [List.getElem?_set_ne hb]

theorem pool_scan_props (E : Env) (pid : Int) (size : Nat) :
    ∀ (ids : List Nat) (arenas : List mh_arena) (mem : Mem) (res : scan_result),
      pool_scan E pid size ids arenas mem = some res →
      res.arenas.length = arenas.length ∧
      (∀ b : Nat, (res.arenas[b]?).map arena_links = (arenas[b]?).map arena_links) ∧
      (∀ b : Nat, b ∉ res.asked → res.arenas[b]? = arenas[b]?) ∧
      res.asked <+: ids ∧
      (res.block = none → res.asked = ids) := by
  intro ids
  induction ids with
  | nil =>
    intro arenas mem res h
    simp [pool_scan] at h
    subst h
    simp
  | cons a rest ih =>
    intro arenas mem res h
    cases har : arenas[a]? with
    | none => simp [pool_scan, har] at h
    | some ar =>
      simp only [pool_scan, har] at h
      cases hr : (E.sm_malloc_pool pid ar.pool size mem).1 with
      | some p =>
        simp only [hr, Option.some.injEq] at h
        subst h
        refine ⟨by simp, fun b => set_pool_links arenas a ar _ har b, ?_, ?_, ?_⟩
        · intro b hb
          have hne : a ≠ b := by
            intro e; apply hb; simp [e]
          simp [List.getElem?_set_ne hne]
        · exact ⟨rest, rfl⟩
        · intro hnone; simp at hnone
      | none =>
        simp only [hr, Option.map_eq_some'] at h
        obtain ⟨x, hx, hres⟩ := h
        subst hres
        obtain ⟨h1, h2, h3, h4, h5⟩ := ih _ _ x hx
        refine ⟨by simpa using h1, ?_, ?_, ?_, ?_⟩
        · intro b
          rw [h2 b]
          exact set_pool_links arenas a ar _ har b
        · intro b hb
          have hne : a ≠ b := by
            intro e; apply hb; simp [e]
          have hnx : b ∉ x.asked := by
            intro e; apply hb; simp [e]
          rw [h3 b hnx, List.getElem?_set_ne hne]
        · obtain ⟨t, ht⟩ := h4
          exact ⟨t, by simp [← ht]⟩
        · intro hnone
          simp [h5 hnone]

theorem pool_scan_split (E : Env) (pid : Int) (size : Nat) :
    ∀ (ids : List Nat) (arenas : List mh_arena) (mem : Mem) (res : scan_result) (p : Nat),
      pool_scan E pid size ids arenas mem = some res → res.block = some p →
      ∃ (pre post : List Nat) (a : Nat) (before : scan_result) (ar : mh_arena),
        ids = pre ++ a :: post ∧ res.asked = pre ++ [a] ∧
        pool_scan E pid size pre arenas mem = some before ∧ before.block = none ∧
        before.arenas[a]? = some ar ∧
        (E.sm_malloc_pool pid ar.pool size before.mem).1 = some p := by
  intro ids
  induction ids with
  | nil =>
    intro arenas mem res p h hb
    simp [pool_scan] at h
    subst h
    simp at hb
  | cons a rest ih =>
    intro arenas mem res p h hb
    cases har : arenas[a]? with
    | none => simp [pool_scan, har] at h
    | some ar =>
      simp only [pool_scan, har] at h
      cases hr : (E.sm_malloc_pool pid ar.pool size mem).1 with
      | some q =>
        simp only [hr, Option.some.injEq] at h
        subst h
        simp at hb
        subst hb
        exact ⟨[], rest, a, { asked := [], block := none, arenas := arenas, mem := mem }, ar,
          rfl, rfl, rfl, rfl, har, hr⟩
      | none =>
        simp only [hr, Option.map_eq_some'] at h
        obtain ⟨x, hx, hres⟩ := h
        subst hres
        obtain ⟨pre, post, a1, before, ar1, h1, h2, h3, h4, h5, h6⟩ := ih _ _ x p hx hb
        refine ⟨a :: pre, post, a1, { before with asked := a :: before.asked }, ar1,
          by simp [h1], by simp [h2], ?_, h4, h5, h6⟩
        simp [pool_scan, har, hr, h3]

theorem mh_heap_malloc_of_scan (E : Env) (fuel h : Nat) (hp : mh_heap) (size : Nat)
    (st : State) (res : scan_result) (p : Nat) (hh : st.heaps[h]? = some hp)
    (hscan : pool_scan E hp.pool_id size (arena_chain st.arenas (fuel + 1) hp.lhead)
      st.arenas st.mem = some res)
    (hb : res.block = some p) :
    mh_heap_malloc E (fuel + 1) (.addr h) size st
      = .ret (some p) { st with arenas := res.arenas, mem := res.mem } := by
  have hs := malloc_scan_eq E h hp size (fuel + 1) hp.lhead st res hh hscan
    (Or.inl (by simp [hb]))
  simp only [mh_heap_malloc, bind_apply, Exec.bind, check_null_heap, pure_apply, load_heap, hh,
    hs, hb]

/-- C16.  Let `heap` be a heap object and let the first-fit scan of its arena
list (followed from `lhead`) obtain the block `p`: the arenas before some
arena `a` of the list all fail when asked in order, and `a` then returns `p`.
Then `mh_heap_malloc(heap, size)` returns `p`.  The arenas asked are the part
of the list up to `a`; every other arena object is unchanged, no arena
object is created, the links and `num_elem` of all arenas are unchanged, and
the heap objects (with `lhead`, `ltail`, `lsize`) and the directory are
unchanged. -/
theorem mh_heap_malloc_first_fit (E : Env) (fuel h : Nat) (hp : mh_heap) (size : Nat)
    (st : State) (p : Nat) (hh : st.heaps[h]? = some hp)
    (hfit : (pool_scan E hp.pool_id size (arena_chain st.arenas (fuel + 1) hp.lhead)
      st.arenas st.mem).bind (fun r => r.block) = some p) :
    ∃ (res : scan_result) (s1 : State),
      pool_scan E hp.pool_id size (arena_chain st.arenas (fuel + 1) hp.lhead)
        st.arenas st.mem = some res ∧
      mh_heap_malloc E (fuel + 1) (.addr h) size st = .ret (some p) s1 ∧
      s1.arenas = res.arenas ∧ s1.mem = res.mem ∧
      s1.heaps = st.heaps ∧ s1.mhallocator = st.mhallocator ∧
      s1.arenas.length = st.arenas.length ∧
      (∀ b : Nat, (s1.arenas[b]?).map arena_links = (st.arenas[b]?).map arena_links) ∧
      (∀ b : Nat, b ∉ res.asked → s1.arenas[b]? = st.arenas[b]?) ∧
      (∃ (pre post : List Nat) (a : Nat) (before : scan_result) (ar : mh_arena),
        arena_chain st.arenas (fuel + 1) hp.lhead = pre ++ a :: post ∧
        res.asked = pre ++ [a] ∧
        pool_scan E hp.pool_id size pre st.arenas st.mem = some before ∧
        before.block = none ∧ before.arenas[a]? = some ar ∧
        (E.sm_malloc_pool hp.pool_id ar.pool size before.mem).1 = some p) := by
  cases hscan : pool_scan E hp.pool_id size (arena_chain st.arenas (fuel + 1) hp.lhead)
      st.arenas st.mem with
  | none => simp [hscan] at hfit
  | some res =>
    have hb : res.block = some p := by simpa [hscan] using hfit
    obtain ⟨h1, h2, h3, -, -⟩ := pool_scan_props E hp.pool_id size _ _ _ res hscan
    exact ⟨res, _, rfl, mh_heap_malloc_of_scan E fuel h hp size st res p hh hscan hb,
      rfl, rfl, rfl, rfl, h1, h2, h3,
      pool_scan_split E hp.pool_id size _ _ _ res p hscan hb⟩

/-- C16, in `busy_state`: heap 1 has the arena list `[1]`, and arena 1 serves
a request of 10 bytes with the block 8224. -/
theorem mh_heap_malloc_first_fit_witness :
    (busy_state.heaps[1]? = some { pool_id := 1, lhead := some 1, ltail := some 1, lsize := 1 } ∧
     (pool_scan demoEnv 1 10 (arena_chain busy_state.arenas (2 + 1) (some 1))
        busy_state.arenas busy_state.mem).bind (fun r => r.block) = some 8224) ∧
    ∃ (res : scan_result) (s1 : State),
      pool_scan demoEnv 1 10 (arena_chain busy_state.arenas (2 + 1) (some 1))
        busy_state.arenas busy_state.mem = some res ∧
      mh_heap_malloc demoEnv (2 + 1) (.addr 1) 10 busy_state = .ret (some 8224) s1 ∧
      s1.arenas = res.arenas ∧ s1.mem = res.mem ∧
      s1.heaps = busy_state.heaps ∧ s1.mhallocator = busy_state.mhallocator ∧
      s1.arenas.length = busy_state.arenas.length ∧
      (∀ b : Nat, (s1.arenas[b]?).map arena_links = (busy_state.arenas[b]?).map arena_links) ∧
      (∀ b : Nat, b ∉ res.asked → s1.arenas[b]? = busy_state.arenas[b]?) ∧
      (∃ (pre post : List Nat) (a : Nat) (before : scan_result) (ar : mh_arena),
        arena_chain busy_state.arenas (2 + 1) (some 1) = pre ++ a :: post ∧
        res.asked = pre ++ [a] ∧
        pool_scan demoEnv 1 10 pre busy_state.arenas busy_state.mem = some before ∧
        before.block = none ∧ before.arenas[a]? = some ar ∧
        (demoEnv.sm_malloc_pool 1 ar.pool 10 before.mem).1 = some 8224) :=
  ⟨⟨rfl, by decide⟩,
   mh_heap_malloc_first_fit demoEnv 2 1
     { pool_id := 1, lhead := some 1, ltail := some 1, lsize := 1 } 10 busy_state 8224 rfl
     (by decide)⟩

/-! ## Growth of a heap that already has an arena -/

theorem mh_new_arena_append (E : Env) (st : State) (h t : Nat) (hp : mh_heap) (ta : mh_arena)
    (ps r : Nat) (hh : st.heaps[h]? = some hp) (hne : hp.lhead ≠ none)
    (ht : hp.ltail = some t) (hta : st.arenas[t]? = some ta)
    (c1 : E.MH_DEFAULT_POOL_SIZE ≤ ps) (c2 : ps % E.MH_DEFAULT_POOL_SIZE = 0)
    (c3 : (E.mmap st.mem ps).1 = some r) :
    mh_new_arena E (.addr h) ps st
      = .ret (some st.arenas.length) (appended_state E st h t hp ta ps r) := by
  have hlt := getElem?_lt_length hh
  have htl := getElem?_lt_length hta
  have hta2 : st.arenas[t] = ta := by
    have := List.getElem?_eq_getElem htl
    rw [this] at hta
    exact Option.some.inj hta
  simp [mh_new_arena, Exec.bind, check, check_null, check_null_heap, store_arena,
    load_arena, load_heap, store_heap, c1, c2, c3, hh, ht, hne, hlt, htl, hta,
    List.getElem?_append_left, Nat.lt_succ_of_lt htl, Nat.ne_of_lt htl,
    List.getElem?_set_ne, List.getElem_append_left, hta2, appended_state]

theorem mh_heap_malloc_grows_once (E : Env) (fuel h t : Nat) (hp : mh_heap) (size : Nat)
    (st : State) (first : scan_result) (ta : mh_arena) (r p : Nat)
    (hh : st.heaps[h]? = some hp) (hne : hp.lhead ≠ none) (ht : hp.ltail = some t)
    (hc : chain_complete st.arenas (fuel + 2) hp.lhead = true)
    (h1 : pool_scan E hp.pool_id size (arena_chain st.arenas (fuel + 2) hp.lhead)
      st.arenas st.mem = some first)
    (hb1 : first.block = none) (hta : first.arenas[t]? = some ta)
    (c1 : E.MH_DEFAULT_POOL_SIZE ≤ min_pool_sz E.MH_DEFAULT_POOL_SIZE E.HEADER_SZ size)
    (c2 : min_pool_sz E.MH_DEFAULT_POOL_SIZE E.HEADER_SZ size % E.MH_DEFAULT_POOL_SIZE = 0)
    (c3 : (E.mmap first.mem (min_pool_sz E.MH_DEFAULT_POOL_SIZE E.HEADER_SZ size)).1 = some r)
    (h2 : (pool_scan E hp.pool_id size
        (arena_chain
          (appended_state E { st with arenas := first.arenas, mem := first.mem } h t hp ta
            (min_pool_sz E.MH_DEFAULT_POOL_SIZE E.HEADER_SZ size) r).arenas
          (fuel + 1) hp.lhead)
        (appended_state E { st with arenas := first.arenas, mem := first.mem } h t hp ta
          (min_pool_sz E.MH_DEFAULT_POOL_SIZE E.HEADER_SZ size) r).arenas
        (appended_state E { st with arenas := first.arenas, mem := first.mem } h t hp ta
          (min_pool_sz E.MH_DEFAULT_POOL_SIZE E.HEADER_SZ size) r).mem).bind
          (fun x => x.block) = some p) :
    ∃ res s,
      pool_scan E hp.pool_id size
        (arena_chain
          (appended_state E { st with arenas := first.arenas, mem := first.mem } h t hp ta
            (min_pool_sz E.MH_DEFAULT_POOL_SIZE E.HEADER_SZ size) r).arenas
          (fuel + 1) hp.lhead)
        (appended_state E { st with arenas := first.arenas, mem := first.mem } h t hp ta
          (min_pool_sz E.MH_DEFAULT_POOL_SIZE E.HEADER_SZ size) r).arenas
        (appended_state E { st with arenas := first.arenas, mem := first.mem } h t hp ta
          (min_pool_sz E.MH_DEFAULT_POOL_SIZE E.HEADER_SZ size) r).mem = some res ∧
      mh_heap_malloc E (fuel + 2) (.addr h) size st = .ret (some p) s ∧
      s.arenas = res.arenas ∧ s.mem = res.mem ∧
      s.arenas.length = st.arenas.length + 1 ∧
      s.heaps = st.heaps.set h
        { hp with ltail := some st.arenas.length, lsize := hp.lsize + 1 } ∧
      (s.arenas[st.arenas.length]?).map arena_links
        = some (.addr h, some t, none, 0) := by
  have hlt := getElem?_lt_length hh
  have htl := getElem?_lt_length hta
  obtain ⟨hlen, -, -, -, -⟩ := pool_scan_props E hp.pool_id size _ _ _ first h1
  have hs1 := malloc_scan_eq E h hp size (fuel + 2) hp.lhead st first hh h1 (Or.inr hc)
  have hna := mh_new_arena_append E { st with arenas := first.arenas, mem := first.mem } h t hp
    ta (min_pool_sz E.MH_DEFAULT_POOL_SIZE E.HEADER_SZ size) r hh hne ht hta c1 c2 c3
  have hh2 : (appended_state E { st with arenas := first.arenas, mem := first.mem } h t hp ta
      (min_pool_sz E.MH_DEFAULT_POOL_SIZE E.HEADER_SZ size) r).heaps[h]?
      = some { hp with ltail := some first.arenas.length, lsize := hp.lsize + 1 } := by
    simp [appended_state, hlt]
  have hheaps : (appended_state E { st with arenas := first.arenas, mem := first.mem } h t hp ta
      (min_pool_sz E.MH_DEFAULT_POOL_SIZE E.HEADER_SZ size) r).heaps
      = st.heaps.set h { hp with ltail := some st.arenas.length, lsize := hp.lsize + 1 } := by
    simp only [appended_state, hlen]
  have hlen2 : (appended_state E { st with arenas := first.arenas, mem := first.mem } h t hp ta
      (min_pool_sz E.MH_DEFAULT_POOL_SIZE E.HEADER_SZ size) r).arenas.length
      = st.arenas.length + 1 := by
    simp only [appended_state, List.length_set, List.length_append, List.length_singleton, hlen]
  have hnew : ((appended_state E { st with arenas := first.arenas, mem := first.mem } h t hp ta
      (min_pool_sz E.MH_DEFAULT_POOL_SIZE E.HEADER_SZ size) r).arenas[st.arenas.length]?).map
        arena_links = some (.addr h, some t, none, 0) := by
    have hne2 : t ≠ first.arenas.length := Nat.ne_of_lt htl
    simp [appended_state, ← hlen, List.getElem?_set_ne hne2, arena_links]
  generalize appended_state E { st with arenas := first.arenas, mem := first.mem } h t hp ta
      (min_pool_sz E.MH_DEFAULT_POOL_SIZE E.HEADER_SZ size) r = st2 at h2 hna hh2 hheaps hlen2 hnew ⊢
  cases hscan2 : pool_scan E hp.pool_id size (arena_chain st2.arenas (fuel + 1) hp.lhead)
      st2.arenas st2.mem with
  | none => simp [hscan2] at h2
  | some res =>
    have hb2 : res.block = some p := by simpa [hscan2] using h2
    obtain ⟨g1, g2, -, -, -⟩ := pool_scan_props E hp.pool_id size _ _ _ res hscan2
    have hretry := mh_heap_malloc_of_scan E fuel h
      { hp with ltail := some first.arenas.length, lsize := hp.lsize + 1 } size st2 res p hh2
      hscan2 hb2
    refine ⟨res, { st2 with arenas := res.arenas, mem := res.mem }, rfl, ?_, rfl, rfl, ?_,
      hheaps, ?_⟩
    · rw [show mh_heap_malloc E (fuel + 2) (.addr h) size st
          = Exec.bind (check_null_heap (.addr h)) (fun _ =>
              Exec.bind (load_heap (.addr h)) (fun hq =>
                Exec.bind (malloc_scan E (.addr h) size (fuel + 2) hq.lhead) (fun rr =>
                  match rr with
                  | some q => pure (some q)
                  | none =>
                    Exec.bind (mh_new_arena E (.addr h)
                      (min_pool_sz E.MH_DEFAULT_POOL_SIZE E.HEADER_SZ size)) (fun _ =>
                      mh_heap_malloc E (fuel + 1) (.addr h) size)))) st from rfl]
      simp only [Exec.bind, check_null_heap, pure_apply, load_heap, hh, hs1, hb1, hna]
      exact hretry
    · simp only [g1, hlen2]
    · simp only [g2, hnew]

theorem claims_congr (E : Env) (s t : State) (p a : Nat) (hA : s.arenas = t.arenas)
    (hM : s.mem = t.mem) : claims E s p a = claims E t p a := by
  simp only [claims, hA, hM]

/-- C14 (defect in the code).  `mh_heap_malloc` never increments `num_elem`.
In `busy_state`, `mh_heap_malloc(heap 1, 10)` is served by the existing arena
1 and returns the block 8224, which that arena then reports as live, while
its `num_elem` is still 0.  `mh_heap_malloc(heap 0, 5000)` creates the new
arena 2 and returns its block 16416, which arena 2 reports as live, while
`num_elem` of arena 2 is 0, not 1; the following `mh_heap_free` of that block
returns and leaves `num_elem` of arena 2 at -1. -/
theorem num_elem_not_incremented :
    ((mh_heap_malloc demoEnv 3 (.addr 1) 10 busy_state).result = some (some 8224) ∧
      (mh_heap_malloc demoEnv 3 (.addr 1) 10 busy_state).live_in demoEnv 8224 1 = some true ∧
      (mh_heap_malloc demoEnv 3 (.addr 1) 10 busy_state).num_elem_of 1 = some 0) ∧
    (∃ s1 s2, mh_heap_malloc demoEnv 3 (.addr 0) 5000 busy_state = .ret (some 16416) s1 ∧
      busy_state.arenas.length = 2 ∧ s1.arenas.length = 3 ∧
      claims demoEnv s1 16416 2 = true ∧
      (s1.arenas[2]?).map (fun ar => ar.num_elem) = some 0 ∧
      mh_heap_free demoEnv 3 (.addr 0) (some 16416) s1 = .ret () s2 ∧
      (s2.arenas[2]?).map (fun ar => ar.num_elem) = some (-1)) := by
  refine ⟨⟨by decide, by decide, by decide⟩, ?_⟩
  obtain ⟨res, s1, hres, hmal, hA, hM, hlen, hheaps, hlinks⟩ :=
    mh_heap_malloc_grows_once demoEnv 1 0 0
      { pool_id := 0, lhead := some 0, ltail := some 0, lsize := 1 } 5000 busy_state
      { asked := [0], block := none, arenas := busy_state.arenas, mem := busy_state.mem }
      { parent := .addr 0, prev := none, next := none, num_elem := 1,
        pool := { pool := some 4096, pool_size := 4096, do_zero := 1, oomfn := none } }
      16384 16416 rfl (by decide) rfl rfl rfl rfl rfl (by decide) (by decide) rfl (by decide)
  have hobs : (pool_scan demoEnv 0 5000 (arena_chain busy_grown.arenas 2 (some 0))
      busy_grown.arenas busy_grown.mem).map (fun x =>
        (arena_chain x.arenas 3 (some 0),
         claims demoEnv { busy_state with arenas := x.arenas, mem := x.mem } 16416 0,
         claims demoEnv { busy_state with arenas := x.arenas, mem := x.mem } 16416 2))
      = some ([0, 2], false, true) := by decide
  have hres2 : pool_scan demoEnv 0 5000 (arena_chain busy_grown.arenas 2 (some 0))
      busy_grown.arenas busy_grown.mem = some res := hres
  rw [hres2] at hobs
  simp only [Option.map_some', Option.some.injEq, Prod.mk.injEq] at hobs
  obtain ⟨hchain, hc0, hc2⟩ := hobs
  have hcl0 : claims demoEnv s1 16416 0 = false := by
    rw [claims_congr demoEnv s1 { busy_state with arenas := res.arenas, mem := res.mem }
      16416 0 hA hM]
    exact hc0
  have hcl2 : claims demoEnv s1 16416 2 = true := by
    rw [claims_congr demoEnv s1 { busy_state with arenas := res.arenas, mem := res.mem }
      16416 2 hA hM]
    exact hc2
  have hh1 : s1.heaps[0]? = some { pool_id := 0, lhead := some 0, ltail := some 2, lsize := 2 } := by
    rw [hheaps]; rfl
  obtain ⟨ar, har, hfree⟩ := mh_heap_free_claimed demoEnv 3 0 16416
    { pool_id := 0, lhead := some 0, ltail := some 2, lsize := 2 } s1 [0] [] 2 hh1
    (by rw [hA]; exact hchain)
    (by intro b hb; simp at hb; subst hb; exact hcl0) hcl2
  have hlinks2 : (s1.arenas[2]?).map arena_links = some (.addr 0, some 0, none, 0) := hlinks
  have hnum : ar.num_elem = 0 := by
    rw [har] at hlinks2
    simp [arena_links] at hlinks2
    exact hlinks2.2.2.2
  have hlt := getElem?_lt_length har
  refine ⟨s1, _, hmal, rfl, hlen, hcl2, ?_, hfree, ?_⟩
  · rw [har]; simp [hnum]
  · simp [freed_state, hlt, hnum]

/-! ## The directory invariant -/

theorem slots_ok_new_id_state (st : State) (hok : dir_ok st) (hs : slots_ok st) :
    slots_ok (new_id_state st) := by
  have hw := dir_ok_write st hok
  intro i hi
  rw [new_id_state_next_id] at hi
  rcases Nat.lt_or_ge i st.mhallocator.next_id with h1 | h1
  · obtain ⟨h, hp, g1, g2, g3⟩ := hs i h1
    refine ⟨h, hp, ?_, ?_, g3⟩
    · simp only [new_id_state]
      rw [List.getElem?_set_ne (by omega)]
      rw [grown_getElem _ hok.2 i (by have := hok.1; omega)]
      exact g1
    · have hlt := getElem?_lt_length g2
      simp only [new_id_state]
      rw [List.getElem?_append_left hlt]
      exact g2
  · have hi2 : i = st.mhallocator.next_id := by omega
    subst hi2
    refine ⟨st.heaps.length, _, ?_, new_id_state_heap st, rfl⟩
    simp only [new_id_state]
    rw [List.getElem?_set_self hw]

theorem mh_new_id_n_inv (n : Nat) : ∀ st : State, dir_ok st → slots_ok st →
    ∃ st2, mh_new_id_n n st
        = .ret ((List.range n).map fun i => ((st.mhallocator.next_id + i : Nat) : Int)) st2
      ∧ dir_ok st2 ∧ slots_ok st2 ∧
        st2.mhallocator.next_id = st.mhallocator.next_id + n := by
  induction n with
  | zero => intro st h hs; exact ⟨st, by simp [mh_new_id_n], h, hs, rfl⟩
  | succ n ih =>
    intro st h hs
    obtain ⟨st2, h2, hok, hs2, hn⟩ :=
      ih (new_id_state st) (dir_ok_new_id_state st h) (slots_ok_new_id_state st h hs)
    refine ⟨st2, ?_, hok, hs2, ?_⟩
    · simp only [mh_new_id_n, bind_apply]
      rw [Exec.bind_ret (mh_new_id_eq st (dir_ok_write st h))]
      simp only [bind_apply]
      rw [Exec.bind_ret h2]
      simp only [pure_apply, new_id_state_next_id, List.range_succ_eq_map, List.map_cons,
        List.map_map]
      congr 2
      · apply List.map_congr_left
        intro i _
        simp only [Function.comp]
        congr 1
        omega
    · rw [hn, new_id_state_next_id]; omega

/-- C15.  With an initial directory capacity of at least 1, after
`mh_init_allocator` and any number `n` of calls of `mh_new_id` (all of which
return, with the ids `1, ..., n`): `0 < next_id < mhsize`, the array `mheaps`
has `mhsize` entries, `next_id` is `n + 1`, and every slot `i < next_id`
holds a heap object whose `pool_id` is `i`.  The index `next_id` that the
next call of `mh_new_id` writes is within the array as it is after the growth
test of that call. -/
theorem directory_invariant (E : Env) (st0 : State) (n : Nat)
    (hcap : 1 ≤ E.MH_INITIAL_MHEAPS_NB) :
    ∃ st1 st2, mh_init_allocator E st0 = .ret () st1 ∧
      mh_new_id_n n st1 = .ret ((List.range n).map fun i => ((i + 1 : Nat) : Int)) st2 ∧
      0 < st2.mhallocator.next_id ∧
      st2.mhallocator.next_id < st2.mhallocator.mhsize ∧
      st2.mhallocator.mheaps.length = st2.mhallocator.mhsize ∧
      st2.mhallocator.next_id = n + 1 ∧
      (∀ i, i < st2.mhallocator.next_id →
        ∃ h hp, st2.mhallocator.mheaps[i]? = some (.addr h) ∧ st2.heaps[h]? = some hp ∧
          hp.pool_id = (i : Int)) ∧
      st2.mhallocator.next_id < (grown st2.mhallocator).mheaps.length := by
  have hok := dir_ok_init_dir E st0 hcap
  have hok1 := dir_ok_new_id_state _ hok
  have hs0 : slots_ok (init_dir E st0) := by
    intro i hi
    simp [init_dir] at hi
  have hs1 := slots_ok_new_id_state _ hok hs0
  obtain ⟨st2, h2, hok2, hs2, hn⟩ := mh_new_id_n_inv n _ hok1 hs1
  have h1 : (new_id_state (init_dir E st0)).mhallocator.next_id = 1 := by
    rw [new_id_state_next_id]; rfl
  refine ⟨_, st2, mh_init_allocator_eq E st0 hcap, ?_, by omega, hok2.1, hok2.2, by omega, hs2,
    dir_ok_write st2 hok2⟩
  rw [h2, h1]
  congr 1
  apply List.map_congr_left
  intro i _
  congr 1
  omega

/-- C15, on the concrete environment with five calls of `mh_new_id`, which
take the directory from 2 to 8 slots. -/
theorem directory_invariant_witness :
    1 ≤ demoEnv.MH_INITIAL_MHEAPS_NB ∧
    ∃ st1 st2, mh_init_allocator demoEnv boot = .ret () st1 ∧
      mh_new_id_n 5 st1 = .ret ((List.range 5).map fun i => ((i + 1 : Nat) : Int)) st2 ∧
      0 < st2.mhallocator.next_id ∧
      st2.mhallocator.next_id < st2.mhallocator.mhsize ∧
      st2.mhallocator.mheaps.length = st2.mhallocator.mhsize ∧
      st2.mhallocator.next_id = 5 + 1 ∧
      (∀ i, i < st2.mhallocator.next_id →
        ∃ h hp, st2.mhallocator.mheaps[i]? = some (.addr h) ∧ st2.heaps[h]? = some hp ∧
          hp.pool_id = (i : Int)) ∧
      st2.mhallocator.next_id < (grown st2.mhallocator).mheaps.length :=
  ⟨by decide, directory_invariant demoEnv boot 5 (by decide)⟩

/-- C17 (defect in the code, the one of C13).  On a heap without arenas
(`lhead` and `ltail` null), `mh_heap_malloc` with a size whose arena size
passes the two checks, and with a successful `mmap`, does not serve the
request from a new arena: it finds no arena to ask, calls `mh_new_arena`, and
the process stops at line 202 of that call.  One arena object has been
created, but it is not on the heap's list (`lhead` is still null, `lsize` is
unchanged), and no retry takes place. -/
theorem mh_heap_malloc_empty_heap_faults (E : Env) (st : State) (h : Nat) (hp : mh_heap)
    (fuel size r : Nat) (hh : st.heaps[h]? = some hp) (hl : hp.lhead = none)
    (ht : hp.ltail = none)
    (c1 : E.MH_DEFAULT_POOL_SIZE ≤ min_pool_sz E.MH_DEFAULT_POOL_SIZE E.HEADER_SZ size)
    (c2 : min_pool_sz E.MH_DEFAULT_POOL_SIZE E.HEADER_SZ size % E.MH_DEFAULT_POOL_SIZE = 0)
    (c3 : (E.mmap st.mem (min_pool_sz E.MH_DEFAULT_POOL_SIZE E.HEADER_SZ size)).1 = some r) :
    mh_heap_malloc E (fuel + 1) (.addr h) size st = .fatal .segv
      { st with
        heaps := st.heaps.set h { hp with ltail := some st.arenas.length },
        arenas := st.arenas ++ [
          { parent := .addr h, prev := none, next := none, num_elem := 0,
            pool := { pool := some r,
                      pool_size := min_pool_sz E.MH_DEFAULT_POOL_SIZE E.HEADER_SZ size,
                      do_zero := 1, oomfn := none } }],
        mem := (E.mmap st.mem (min_pool_sz E.MH_DEFAULT_POOL_SIZE E.HEADER_SZ size)).2 } := by
  have hlt := getElem?_lt_length hh
  simp [mh_heap_malloc, malloc_scan, mh_new_arena, Exec.bind, check, check_null,
    check_null_heap, store_arena, load_arena, load_heap, store_heap, c1, c2, c3, hh, hl, ht, hlt]

/-- C17, on the default heap right after `mh_init_allocator`, for a request
of 100 bytes. -/
theorem mh_heap_malloc_empty_heap_faults_witness :
    (demo_state.heaps[0]? = some { pool_id := 0, lhead := none, ltail := none, lsize := 0 } ∧
     demoEnv.MH_DEFAULT_POOL_SIZE
       ≤ min_pool_sz demoEnv.MH_DEFAULT_POOL_SIZE demoEnv.HEADER_SZ 100 ∧
     min_pool_sz demoEnv.MH_DEFAULT_POOL_SIZE demoEnv.HEADER_SZ 100
       % demoEnv.MH_DEFAULT_POOL_SIZE = 0 ∧
     (demoEnv.mmap demo_state.mem
       (min_pool_sz demoEnv.MH_DEFAULT_POOL_SIZE demoEnv.HEADER_SZ 100)).1 = some 4096) ∧
    mh_heap_malloc demoEnv (2 + 1) (.addr 0) 100 demo_state = .fatal .segv
      { demo_state with
        heaps := demo_state.heaps.set 0
          { pool_id := 0, lhead := none, ltail := some demo_state.arenas.length, lsize := 0 },
        arenas := demo_state.arenas ++ [
          { parent := .addr 0, prev := none, next := none, num_elem := 0,
            pool := { pool := some 4096,
                      pool_size :=
                        min_pool_sz demoEnv.MH_DEFAULT_POOL_SIZE demoEnv.HEADER_SZ 100,
                      do_zero := 1, oomfn := none } }],
        mem := (demoEnv.mmap demo_state.mem
          (min_pool_sz demoEnv.MH_DEFAULT_POOL_SIZE demoEnv.HEADER_SZ 100)).2 } :=
  ⟨⟨rfl, by decide, by decide, rfl⟩,
   mh_heap_malloc_empty_heap_faults demoEnv demo_state 0
     { pool_id := 0, lhead := none, ltail := none, lsize := 0 } 2 100 4096 rfl rfl rfl
     (by decide) (by decide) rfl⟩

/-- C18 (the claim as stated fails).  With default pool size 4096 and header
size 32, the request of `2^64 - 33` bytes gives `s = 2^64 - 1`, and the
arena size of lines 149-151 wraps to 0: it is not positive, and in the state
right after `mh_init_allocator` the call `mh_malloc(0, 2^64 - 33)` stops at
the first "wrong size arena" check of `mh_new_arena`.  The request of
`2^64 - 1` bytes gives `s = 31` after the wrap and the arena size 4096, which
is below `size + header_size`. -/
theorem min_pool_sz_wraps :
    (2 ^ 64 - 33 < SIZE_MOD ∧ min_pool_sz 4096 32 (2 ^ 64 - 33) = 0 ∧
      mh_malloc demoEnv 1 0 (2 ^ 64 - 33) demo_state
        = .fatal (.crash .wrong_size_arena) demo_state) ∧
    (2 ^ 64 - 1 < SIZE_MOD ∧ min_pool_sz 4096 32 (2 ^ 64 - 1) = 4096 ∧
      min_pool_sz 4096 32 (2 ^ 64 - 1) < (2 ^ 64 - 1) + 32) := by
  have h1 : min_pool_sz 4096 32 (2 ^ 64 - 33) = 0 := by
    simp [min_pool_sz, SIZE_MOD]
  have h2 : min_pool_sz 4096 32 (2 ^ 64 - 1) = 4096 := by
    simp [min_pool_sz, SIZE_MOD]
  refine ⟨⟨by simp [SIZE_MOD], h1, ?_⟩, by simp [SIZE_MOD], h2, by rw [h2]; norm_num⟩
  have hslot : read_slot demo_state 0 = .addr 0 := rfl
  rw [mh_malloc_valid_id demoEnv 1 0 _ demo_state (le_refl 0) (by decide), hslot]
  have hD : demoEnv.MH_DEFAULT_POOL_SIZE = 4096 := rfl
  have hH : demoEnv.HEADER_SZ = 32 := rfl
  have hheap : demo_state.heaps[0]?
      = some { pool_id := 0, lhead := none, ltail := none, lsize := 0 } := rfl
  have h3 : min_pool_sz 4096 32 18446744073709551583 = 0 := by
    simp [min_pool_sz, SIZE_MOD]
  simp [mh_heap_malloc, malloc_scan, mh_new_arena, Exec.bind, check, check_null_heap,
    load_heap, hheap, hD, hH, h3]

/-- C18 (amended).  For a positive default pool size `D` and a request with
`s = size + header_size` below `2^64` such that, when `s >= D`, the rounded
size `(s / D + 1) * D` is below `2^64` too, the arena size computed by
`mh_heap_malloc` is a positive multiple of `D`, at least `D` and at least
`size + header_size`, and the two "wrong size arena" checks at the top of
`mh_new_arena` pass. -/
theorem min_pool_sz_checks (E : Env) (size : Nat) (st : State)
    (hD : 0 < E.MH_DEFAULT_POOL_SIZE) (hs : size + E.HEADER_SZ < SIZE_MOD)
    (hfit : E.MH_DEFAULT_POOL_SIZE ≤ size + E.HEADER_SZ →
      ((size + E.HEADER_SZ) / E.MH_DEFAULT_POOL_SIZE + 1) * E.MH_DEFAULT_POOL_SIZE < SIZE_MOD) :
    0 < min_pool_sz E.MH_DEFAULT_POOL_SIZE E.HEADER_SZ size ∧
    E.MH_DEFAULT_POOL_SIZE ∣ min_pool_sz E.MH_DEFAULT_POOL_SIZE E.HEADER_SZ size ∧
    size + E.HEADER_SZ ≤ min_pool_sz E.MH_DEFAULT_POOL_SIZE E.HEADER_SZ size ∧
    check (decide (E.MH_DEFAULT_POOL_SIZE
        ≤ min_pool_sz E.MH_DEFAULT_POOL_SIZE E.HEADER_SZ size)) .wrong_size_arena st
      = .ret () st ∧
    check (decide (min_pool_sz E.MH_DEFAULT_POOL_SIZE E.HEADER_SZ size
        % E.MH_DEFAULT_POOL_SIZE = 0)) .wrong_size_arena st = .ret () st := by
  have hmod : (size + E.HEADER_SZ) % SIZE_MOD = size + E.HEADER_SZ := Nat.mod_eq_of_lt hs
  have key : E.MH_DEFAULT_POOL_SIZE ∣ min_pool_sz E.MH_DEFAULT_POOL_SIZE E.HEADER_SZ size ∧
      E.MH_DEFAULT_POOL_SIZE ≤ min_pool_sz E.MH_DEFAULT_POOL_SIZE E.HEADER_SZ size ∧
      size + E.HEADER_SZ ≤ min_pool_sz E.MH_DEFAULT_POOL_SIZE E.HEADER_SZ size := by
    rcases Nat.lt_or_ge (size + E.HEADER_SZ) E.MH_DEFAULT_POOL_SIZE with h | h
    · have hv : min_pool_sz E.MH_DEFAULT_POOL_SIZE E.HEADER_SZ size
          = E.MH_DEFAULT_POOL_SIZE := by
        simp [min_pool_sz, hmod, h]
      rw [hv]
      exact ⟨dvd_refl _, le_refl _, Nat.le_of_lt h⟩
    · have hv : min_pool_sz E.MH_DEFAULT_POOL_SIZE E.HEADER_SZ size
          = ((size + E.HEADER_SZ) / E.MH_DEFAULT_POOL_SIZE + 1) * E.MH_DEFAULT_POOL_SIZE := by
        simp only [min_pool_sz, hmod, Nat.not_lt.mpr h, if_false]
        exact Nat.mod_eq_of_lt (hfit h)
      have hgt := least_multiple_gt_succ_div E.MH_DEFAULT_POOL_SIZE (size + E.HEADER_SZ) hD
      rw [hv]
      exact ⟨hgt.1, Nat.le_trans h (Nat.le_of_lt hgt.2.1), Nat.le_of_lt hgt.2.1⟩
  obtain ⟨k1, k2, k3⟩ := key
  refine ⟨Nat.lt_of_lt_of_le hD k2, k1, k3, ?_, ?_⟩
  · simp [check, k2]
  · simp [check, Nat.mod_eq_zero_of_dvd k1]

/-- C18 (amended), on the concrete environment for a request of 10000
bytes. -/
theorem min_pool_sz_checks_witness :
    (0 < demoEnv.MH_DEFAULT_POOL_SIZE ∧ 10000 + demoEnv.HEADER_SZ < SIZE_MOD ∧
      (demoEnv.MH_DEFAULT_POOL_SIZE ≤ 10000 + demoEnv.HEADER_SZ →
        ((10000 + demoEnv.HEADER_SZ) / demoEnv.MH_DEFAULT_POOL_SIZE + 1)
          * demoEnv.MH_DEFAULT_POOL_SIZE < SIZE_MOD)) ∧
    (0 < min_pool_sz demoEnv.MH_DEFAULT_POOL_SIZE demoEnv.HEADER_SZ 10000 ∧
     demoEnv.MH_DEFAULT_POOL_SIZE ∣ min_pool_sz demoEnv.MH_DEFAULT_POOL_SIZE demoEnv.HEADER_SZ 10000 ∧
     10000 + demoEnv.HEADER_SZ ≤ min_pool_sz demoEnv.MH_DEFAULT_POOL_SIZE demoEnv.HEADER_SZ 10000 ∧
     check (decide (demoEnv.MH_DEFAULT_POOL_SIZE
        ≤ min_pool_sz demoEnv.MH_DEFAULT_POOL_SIZE demoEnv.HEADER_SZ 10000))
        .wrong_size_arena demo_state = .ret () demo_state ∧
     check (decide (min_pool_sz demoEnv.MH_DEFAULT_POOL_SIZE demoEnv.HEADER_SZ 10000
        % demoEnv.MH_DEFAULT_POOL_SIZE = 0)) .wrong_size_arena demo_state
        = .ret () demo_state) :=
  ⟨⟨by decide, by simp [SIZE_MOD, demoEnv], fun _ => by simp [SIZE_MOD, demoEnv]⟩,
   min_pool_sz_checks demoEnv 10000 demo_state (by decide) (by simp [SIZE_MOD, demoEnv])
     (fun _ => by simp [SIZE_MOD, demoEnv])⟩

/-- C19.  For every id with `0 <= id < mhsize` and all `nmemb > 0`,
`size > 0`, `mh_calloc(id, nmemb, size)` has the outcome of `mh_malloc` for
the byte count `nmemb * size mod 2^64`; no case of the call tests the
product.  For `nmemb = size = 2^32` that byte count is 0, below the product
`2^64` and below `nmemb`, and the call is the ordinary allocation
`mh_malloc(id, 0)`. -/
theorem mh_calloc_wraps (E : Env) (fuel : Nat) (id : Int) (nmemb size : Nat) (st : State)
    (h0 : 0 ≤ id) (h1 : id < st.mhallocator.mhsize) (hn : 0 < nmemb) (hs : 0 < size) :
    mh_calloc E fuel id nmemb size st
      = mh_heap_malloc E fuel (read_slot st id) (nmemb * size % SIZE_MOD) st ∧
    mh_calloc E fuel id nmemb size st = mh_malloc E fuel id (nmemb * size % SIZE_MOD) st ∧
    (0 < 2 ^ 32 ∧ 2 ^ 32 < SIZE_MOD ∧
      2 ^ 32 * 2 ^ 32 % SIZE_MOD < 2 ^ 32 * 2 ^ 32 ∧ 2 ^ 32 * 2 ^ 32 % SIZE_MOD < 2 ^ 32 ∧
      mh_calloc E fuel id (2 ^ 32) (2 ^ 32) st = mh_malloc E fuel id 0 st) := by
  have hgen : ∀ a b : Nat, 0 < a → 0 < b →
      mh_calloc E fuel id a b st
        = mh_heap_malloc E fuel (read_slot st id) (a * b % SIZE_MOD) st := by
    intro a b ha hb
    rw [mh_calloc_valid_id E fuel id a b st h0 h1]
    have hz : ¬ (a = 0 ∨ b = 0) := by omega
    simp [hz]
  refine ⟨hgen nmemb size hn hs, ?_, by norm_num, by norm_num [SIZE_MOD],
    by norm_num [SIZE_MOD], by norm_num [SIZE_MOD], ?_⟩
  · rw [hgen nmemb size hn hs, mh_malloc_valid_id E fuel id _ st h0 h1]
  · rw [hgen (2 ^ 32) (2 ^ 32) (by norm_num) (by norm_num),
      mh_malloc_valid_id E fuel id _ st h0 h1]
    norm_num [SIZE_MOD]

/-- C19, for `calloc(0, 3, 5)` in the state right after
`mh_init_allocator`. -/
theorem mh_calloc_wraps_witness :
    ((0 : Int) ≤ 0 ∧ (0 : Int) < demo_state.mhallocator.mhsize ∧ 0 < 3 ∧ 0 < 5) ∧
    (mh_calloc demoEnv 2 0 3 5 demo_state
        = mh_heap_malloc demoEnv 2 (read_slot demo_state 0) (3 * 5 % SIZE_MOD) demo_state ∧
     mh_calloc demoEnv 2 0 3 5 demo_state = mh_malloc demoEnv 2 0 (3 * 5 % SIZE_MOD) demo_state ∧
     (0 < 2 ^ 32 ∧ 2 ^ 32 < SIZE_MOD ∧
      2 ^ 32 * 2 ^ 32 % SIZE_MOD < 2 ^ 32 * 2 ^ 32 ∧ 2 ^ 32 * 2 ^ 32 % SIZE_MOD < 2 ^ 32 ∧
      mh_calloc demoEnv 2 0 (2 ^ 32) (2 ^ 32) demo_state = mh_malloc demoEnv 2 0 0 demo_state)) :=
  ⟨⟨by decide, by decide, by decide, by decide⟩,
   mh_calloc_wraps demoEnv 2 0 3 5 demo_state (by decide) (by decide) (by decide) (by decide)⟩

/-! ## Slots that were never assigned -/

theorem tail_null_new_id_state (st : State) (ht : tail_null st)
    (hroom : st.mhallocator.next_id + 1 < st.mhallocator.mhsize) :
    (new_id_state st).mhallocator.mhsize = st.mhallocator.mhsize ∧
      tail_null (new_id_state st) := by
  have hg : grown st.mhallocator = { st.mhallocator with next_id := st.mhallocator.next_id + 1 } := by
    unfold grown
    rw [if_neg (by omega)]
  have hsz : (new_id_state st).mhallocator.mhsize = st.mhallocator.mhsize := by
    simp [new_id_state, hg]
  refine ⟨hsz, ?_⟩
  intro j hj1 hj2
  rw [new_id_state_next_id] at hj1
  rw [hsz] at hj2
  simp only [new_id_state, hg]
  rw [List.getElem?_set_ne (by omega)]
  exact ht j (by omega) hj2

theorem mh_new_id_n_ungrown (n : Nat) : ∀ st : State, dir_ok st → tail_null st →
    st.mhallocator.next_id + n < st.mhallocator.mhsize →
    ∃ st2, mh_new_id_n n st
        = .ret ((List.range n).map fun i => ((st.mhallocator.next_id + i : Nat) : Int)) st2
      ∧ dir_ok st2 ∧ tail_null st2 ∧ st2.mhallocator.mhsize = st.mhallocator.mhsize ∧
        st2.mhallocator.next_id = st.mhallocator.next_id + n := by
  induction n with
  | zero => intro st h ht _; exact ⟨st, by simp [mh_new_id_n], h, ht, rfl, rfl⟩
  | succ n ih =>
    intro st h ht hroom
    obtain ⟨hsz, ht1⟩ := tail_null_new_id_state st ht (by omega)
    obtain ⟨st2, h2, hok, ht2, hsz2, hn⟩ :=
      ih (new_id_state st) (dir_ok_new_id_state st h) ht1
        (by rw [new_id_state_next_id, hsz]; omega)
    refine ⟨st2, ?_, hok, ht2, by rw [hsz2, hsz], ?_⟩
    · simp only [mh_new_id_n, bind_apply]
      rw [Exec.bind_ret (mh_new_id_eq st (dir_ok_write st h))]
      simp only [bind_apply]
      rw [Exec.bind_ret h2]
      simp only [pure_apply, new_id_state_next_id, List.range_succ_eq_map, List.map_cons,
        List.map_map]
      congr 2
      · apply List.map_congr_left
        intro i _
        simp only [Function.comp]
        congr 1
        omega
    · rw [hn, new_id_state_next_id]; omega

theorem mh_heap_malloc_null (E : Env) (fuel size : Nat) (st : State) :
    mh_heap_malloc E (fuel + 1) .null size st = .fatal (.crash .ptr_is_null) st := by
  simp [mh_heap_malloc, Exec.bind, check_null_heap]

/-- C20.  `mh_malloc` validates the id against the capacity `mhsize`, not
against `next_id`.  Let `N` be the initial capacity.  After
`mh_init_allocator` and `n` calls of `mh_new_id`, for every id with
`n + 1 <= id < N` (such ids exist only while the directory has not grown):
`next_id` is `n + 1`, the capacity is still `N`, so `next_id <= id < mhsize`
and `id` was never returned by `mh_new_id`; the slot `mheaps[id]` is null,
and `mh_malloc(id, size)` passes the bounds check and stops at the null
check of `mh_heap_malloc`, in an unchanged state: no arena is created and no
pointer is returned. -/
theorem mh_malloc_unassigned_id (E : Env) (st0 : State) (n fuel size : Nat) (id : Int)
    (hid1 : ((n + 1 : Nat) : Int) ≤ id) (hid2 : id < (E.MH_INITIAL_MHEAPS_NB : Int)) :
    ∃ st1 st2, mh_init_allocator E st0 = .ret () st1 ∧
      mh_new_id_n n st1 = .ret ((List.range n).map fun i => ((i + 1 : Nat) : Int)) st2 ∧
      st2.mhallocator.next_id = n + 1 ∧
      st2.mhallocator.mhsize = E.MH_INITIAL_MHEAPS_NB ∧
      read_slot st2 id = .null ∧
      mh_malloc E (fuel + 1) id size st2 = .fatal (.crash .ptr_is_null) st2 := by
  have hroom : n + 1 < E.MH_INITIAL_MHEAPS_NB := by omega
  have hcap : 1 ≤ E.MH_INITIAL_MHEAPS_NB := by omega
  have hok := dir_ok_init_dir E st0 hcap
  have hok1 := dir_ok_new_id_state _ hok
  have hn1 : (new_id_state (init_dir E st0)).mhallocator.next_id = 1 := by
    rw [new_id_state_next_id]; rfl
  have hlist : ((List.range n).map fun i =>
        (((new_id_state (init_dir E st0)).mhallocator.next_id + i : Nat) : Int))
      = (List.range n).map fun i => ((i + 1 : Nat) : Int) := by
    rw [hn1]
    apply List.map_congr_left
    intro i _
    congr 1
    omega
  have ht0 : tail_null (init_dir E st0) := by
    intro j _ hj
    have hj2 : j < E.MH_INITIAL_MHEAPS_NB := hj
    simp [init_dir, List.getElem?_replicate, hj2]
  have hroom0 : (init_dir E st0).mhallocator.next_id + 1
      < (init_dir E st0).mhallocator.mhsize := by
    show 0 + 1 < E.MH_INITIAL_MHEAPS_NB
    omega
  obtain ⟨hsz1, ht1⟩ := tail_null_new_id_state (init_dir E st0) ht0 hroom0
  have hsz1b : (new_id_state (init_dir E st0)).mhallocator.mhsize = E.MH_INITIAL_MHEAPS_NB :=
    hsz1
  obtain ⟨st2, h2, -, ht2, hsz2, hn2⟩ :=
    mh_new_id_n_ungrown n _ hok1 ht1 (by rw [hn1, hsz1b]; omega)
  rw [hlist] at h2
  have hnext : st2.mhallocator.next_id = n + 1 := by rw [hn2, hn1]; omega
  have hsize : st2.mhallocator.mhsize = E.MH_INITIAL_MHEAPS_NB := by rw [hsz2, hsz1b]
  have hslot : read_slot st2 id = .null := by
    have h0 : ¬ id < 0 := by omega
    have := ht2 id.toNat (by omega) (by omega)
    simp [read_slot, h0, this]
  refine ⟨_, st2, mh_init_allocator_eq E st0 hcap, h2, hnext, hsize, hslot, ?_⟩
  rw [mh_malloc_valid_id E (fuel + 1) id size st2 (by omega) (by omega), hslot]
  exact mh_heap_malloc_null E fuel size st2

/-- C20, on an environment with 8 initial slots: after two calls of
`mh_new_id` the id 5 passes the bounds check and hits a null slot. -/
theorem mh_malloc_unassigned_id_witness :
    ((((2 + 1 : Nat) : Int) ≤ 5) ∧
      (5 : Int) < (({ demoEnv with MH_INITIAL_MHEAPS_NB := 8 } : Env).MH_INITIAL_MHEAPS_NB : Int)) ∧
    ∃ st1 st2, mh_init_allocator { demoEnv with MH_INITIAL_MHEAPS_NB := 8 } boot = .ret () st1 ∧
      mh_new_id_n 2 st1 = .ret ((List.range 2).map fun i => ((i + 1 : Nat) : Int)) st2 ∧
      st2.mhallocator.next_id = 2 + 1 ∧
      st2.mhallocator.mhsize
        = ({ demoEnv with MH_INITIAL_MHEAPS_NB := 8 } : Env).MH_INITIAL_MHEAPS_NB ∧
      read_slot st2 5 = .null ∧
      mh_malloc { demoEnv with MH_INITIAL_MHEAPS_NB := 8 } (0 + 1) 5 10 st2
        = .fatal (.crash .ptr_is_null) st2 :=
  ⟨⟨by decide, by decide⟩,
   mh_malloc_unassigned_id { demoEnv with MH_INITIAL_MHEAPS_NB := 8 } boot 2 0 10 5
    (by decide) (by decide)⟩

end MultiHeap
